import Mathlib

/-!
Verification of the zeroperl-ts host layer.

This development shallowly embeds the TypeScript source of the repository:
the Asyncify bridge (`src/wasi/asyncify.ts`), the value-proxy and marshaling
layer, host-function dispatch, guest-call contexts and eval/runFile outcome
handling from the main module.  The guest WebAssembly interpreter (the
prebuilt `zeroperl.wasm` binary) and its asyncify runtime exports are
external collaborators of the repository; where their behaviour is needed it
is modelled from the specification's interface description, and every such
definition carries a doc comment starting with `Modelled from the spec:`.
-/

namespace ZeroPerlTs

/-- Equality of `Except` results is decidable when both components are. -/
instance {ε α : Type} [DecidableEq ε] [DecidableEq α] : DecidableEq (Except ε α) :=
  fun x y =>
    match x, y with
    | Except.ok a, Except.ok b =>
      if h : a = b then isTrue (by rw [h])
      else isFalse (by intro hh; cases hh; exact h rfl)
    | Except.error a, Except.error b =>
      if h : a = b then isTrue (by rw [h])
      else isFalse (by intro hh; cases hh; exact h rfl)
    | Except.ok _, Except.error _ => isFalse (by intro hh; cases hh)
    | Except.error _, Except.ok _ => isFalse (by intro hh; cases hh)

/- ===================================================================
   Part A.  Asyncify bridge (src/wasi/asyncify.ts)
   =================================================================== -/

/-- Asyncify module state, `enum State` in src/wasi/asyncify.ts lines 26-30. -/
inductive State
  | none
  | unwinding
  | rewinding
deriving DecidableEq

/-- Numeric value of a `State`, as in the TypeScript enum. -/
def stateNum : State → Nat
  | State.none => 0
  | State.unwinding => 1
  | State.rewinding => 2

/-- Error text raised by `assertNoneState` (asyncify.ts line 93). -/
def invalidStateMsg (s : State) : String :=
  "Invalid async state " ++ toString (stateNum s) ++ ", expected 0."

/-- Host-side `this.value` field of class `Asyncify`: either nothing,
a still-pending promise that will resolve to `x`, or the resolved value. -/
inductive SlotVal (α : Type)
  | undef
  | prom (x : α)
  | resolved (x : α)
deriving DecidableEq

/-- The observable state of an `Asyncify` instance: the guest's asyncify
state (read through the `asyncify_get_state` export) and the host's pending
result slot `this.value`. -/
structure Asyncify (α : Type) where
  state : State
  value : SlotVal α
deriving DecidableEq

/-- Behaviour of the underlying import implementation for one call:
either it returns a value synchronously, or it returns a pending promise
that later resolves to the given value. -/
inductive ImportImpl (α : Type)
  | sync (v : α)
  | pending (v : α)

/-- `assertNoneState` (asyncify.ts lines 90-95): errors unless the guest's
asyncify state is `None`. -/
def assertNoneState {α : Type} (σ : Asyncify α) : Except String Unit :=
  if σ.state = State.none then Except.ok () else Except.error (invalidStateMsg σ.state)

/-- One invocation of the wrapper built by `wrapImportFn`
(asyncify.ts lines 97-113).  On the rewinding path it calls the guest's
`asyncify_stop_rewind` (modelled from the spec: transitions
Rewinding → None) and answers with the stored `this.value` instead of
re-running the import; otherwise it asserts state `None`, runs the
underlying import, and on a pending result calls `asyncify_start_unwind`
(modelled from the spec: transitions None → Unwinding) and stores the
promise.  The returned `Option α` is the value handed to the guest
(`none` plays the role of JavaScript `undefined`). -/
def wrapImportFn {α : Type} (imp : ImportImpl α) (σ : Asyncify α) :
    Except String (Asyncify α × Option α) :=
  if σ.state = State.rewinding then
    match σ.value with
    | SlotVal.resolved x => Except.ok ({ σ with state := State.none }, some x)
    | v => Except.ok ({ state := State.none, value := v }, none)
  else
    match assertNoneState σ with
    | Except.error e => Except.error e
    | Except.ok _ =>
      match imp with
      | ImportImpl.sync v => Except.ok (σ, some v)
      | ImportImpl.pending v =>
          Except.ok ({ state := State.unwinding, value := SlotVal.prom v }, none)

/-- Modelled from the spec: the asyncify-instrumented guest body of a
wrapped export.  The guest calls the (wrapped) import once and, if that
call started an unwind, propagates the unwind up its own stack and
returns without computing; otherwise it computes `body` of the import's
value.  Here `body` stands for the rest of the guest computation applied
to the original call arguments. -/
def guestBody {α β : Type} (imp : ImportImpl α) (body : α → β) (σ : Asyncify α) :
    Except String (Asyncify α × Option β) :=
  match wrapImportFn imp σ with
  | Except.error e => Except.error e
  | Except.ok (σ', r) =>
    if σ'.state = State.unwinding then
      Except.ok (σ', none)
    else
      match r with
      | some v => Except.ok (σ', some (body v))
      | none => Except.ok (σ', none)

/-- Modelled from the spec: `await this.value` resolves the pending promise
stored in the slot. -/
def awaitValue {α : Type} (σ : Asyncify α) : Asyncify α :=
  match σ.value with
  | SlotVal.prom x => { σ with value := SlotVal.resolved x }
  | _ => σ

/-- The `while (this.getState() === State.Unwinding)` loop of the export
wrapper (asyncify.ts lines 141-148), with fuel bounding the number of
iterations of the model.  Each iteration calls `asyncify_stop_unwind`
(modelled from the spec: Unwinding → None), awaits the stored promise,
re-asserts `None`, calls `asyncify_start_rewind` (None → Rewinding) and
re-invokes the export body with the same original arguments. -/
def exportLoop {α β : Type} (imp : ImportImpl α) (body : α → β) :
    Nat → Asyncify α → Option β → Except String (Asyncify α × Option β)
  | 0, _, _ => Except.error ("asyncify loop fuel exhausted")
  | Nat.succ fuel, σ, r =>
    if σ.state = State.unwinding then
      let σ₁ : Asyncify α := { σ with state := State.none }
      let σ₂ := awaitValue σ₁
      match assertNoneState σ₂ with
      | Except.error e => Except.error e
      | Except.ok _ =>
        let σ₃ : Asyncify α := { σ₂ with state := State.rewinding }
        match guestBody imp body σ₃ with
        | Except.error e => Except.error e
        | Except.ok (σ₄, r') => exportLoop imp body fuel σ₄ r'
    else
      match assertNoneState σ with
      | Except.error e => Except.error e
      | Except.ok _ => Except.ok (σ, r)

/-- One invocation of the wrapper built by `wrapExportFn`
(asyncify.ts lines 137-152): assert state `None`, run the export body,
then loop while the guest is unwinding; finally assert `None` and return
the body's result. -/
def runWrappedExport {α β : Type} (fuel : Nat) (imp : ImportImpl α) (body : α → β)
    (σ : Asyncify α) : Except String (Asyncify α × Option β) :=
  match assertNoneState σ with
  | Except.error e => Except.error e
  | Except.ok _ =>
    match guestBody imp body σ with
    | Except.error e => Except.error e
    | Except.ok (σ', r) => exportLoop imp body fuel σ' r

/- ===================================================================
   Part B.  Import/export wrapping policy and the wrapper cache
   =================================================================== -/

/-- `DEFAULT_UNWRAPPED_EXPORTS` (asyncify.ts line 24). -/
def DEFAULT_UNWRAPPED_EXPORTS : List String := [ ("free"), ("malloc") ]

/-- The exclusion set built in the `Asyncify` constructor
(asyncify.ts lines 78-83): the defaults plus caller-supplied names. -/
def unwrappedExportNames (optionsUnwrapped : List String) : List String :=
  DEFAULT_UNWRAPPED_EXPORTS ++ optionsUnwrapped

/-- A value in a module's import object: a function (identified by an id
standing for its JavaScript identity) or a non-function value. -/
inductive ImportVal
  | fn (id : Nat)
  | other (id : Nat)
deriving DecidableEq

/-- Result of the import-wrapping pass for one entry. -/
inductive WrappedImport
  | wrappedFn (id : Nat)
  | plain (v : ImportVal)
deriving DecidableEq

/-- `wrapModuleImports` (asyncify.ts lines 115-122): the proxy's `get`
handler wraps every function value with `wrapImportFn` and passes any
non-function value through.  No name is consulted. -/
def wrapModuleImports (m : List (String × ImportVal)) : List (String × WrappedImport) :=
  m.map (fun e =>
    (e.1,
      match e.2 with
      | ImportVal.fn i => WrappedImport.wrappedFn i
      | v => WrappedImport.plain v))

/-- A value in the instantiated module's export object. -/
inductive ExportVal
  | fn (id : Nat)
  | other (id : Nat)
deriving DecidableEq

/-- Result of the export-wrapping pass for one entry. -/
inductive WrappedExport
  | wrapped (wid : Nat)
  | plain (v : ExportVal)
deriving DecidableEq

/-- The module-level `WRAPPED_EXPORTS` WeakMap (asyncify.ts line 21),
modelled as an explicit identity-keyed cache: `entries` maps a function id
to its wrapper id, `nextId` generates fresh wrapper identities. -/
structure WrapCache where
  nextId : Nat
  entries : List (Nat × Nat)
deriving DecidableEq

/-- `wrapExportFn` (asyncify.ts lines 131-156) restricted to its caching
behaviour: if the function already has a wrapper in `WRAPPED_EXPORTS`,
return that same wrapper; otherwise create a fresh wrapper, record it, and
return it.  (The runtime behaviour of the created wrapper is
`runWrappedExport`.) -/
def wrapExportFn (c : WrapCache) (fnId : Nat) : WrapCache × Nat :=
  match c.entries.lookup fnId with
  | some w => (c, w)
  | none => ({ nextId := c.nextId + 1, entries := (fnId, c.nextId) :: c.entries }, c.nextId)

/-- `wrapExports` (asyncify.ts lines 158-178): every export is copied to
the new export object; a function export is wrapped with `wrapExportFn`
unless its name starts with `asyncify_` or is in the exclusion set. -/
def wrapExports (excl : List String) :
    WrapCache → List (String × ExportVal) → WrapCache × List (String × WrappedExport)
  | c, [] => (c, [])
  | c, (n, v) :: rest =>
    match v with
    | ExportVal.fn id =>
      if n.startsWith ("asyncify_") = false ∧ n ∉ excl then
        let p := wrapExportFn c id
        let q := wrapExports excl p.1 rest
        (q.1, (n, WrappedExport.wrapped p.2) :: q.2)
      else
        let q := wrapExports excl c rest
        (q.1, (n, WrappedExport.plain v) :: q.2)
    | _ =>
      let q := wrapExports excl c rest
      (q.1, (n, WrappedExport.plain v) :: q.2)

/- ===================================================================
   Part C.  Guest interpreter heap and the value-proxy layer
   (ZeroPerl main module; the guest's `zeroperl_*` exports are external
   and are modelled from the spec)
   =================================================================== -/

/-- Modelled from the spec: the interpreter-owned values living in the
guest's reference-counted heap (scalar tags undef/true/false/int/double/
string, aggregates array/hash, and references).  JavaScript doubles are
modelled as rationals. -/
inductive PVal
  | vundef
  | vtrue
  | vfalse
  | vint (n : Int)
  | vdouble (q : Rat)
  | vstring (s : String)
  | varray (elems : List Nat)
  | vhash (entries : List (String × Nat))
  | vref (target : Nat)
deriving DecidableEq

/-- Modelled from the spec: the guest interpreter's reference-counted
value heap.  `cells` maps a live handle to its value and reference count;
`next` is the next fresh handle. -/
structure GuestHeap where
  next : Nat
  cells : Nat → Option (PVal × Nat)

/-- The heap of a freshly initialized interpreter: no live handles. -/
def emptyHeap : GuestHeap := { next := 1, cells := fun _ => none }

/-- Well-formedness of a guest heap: handle `0` is never live and no
handle at or above `next` is live. -/
def GuestHeap.WF (σ : GuestHeap) : Prop :=
  1 ≤ σ.next ∧ σ.cells 0 = none ∧ ∀ h, σ.next ≤ h → σ.cells h = none

/-- The value currently held by a handle, if live. -/
def GuestHeap.get (σ : GuestHeap) (h : Nat) : Option PVal :=
  (σ.cells h).map Prod.fst

/-- Modelled from the spec: allocate a fresh interpreter value with
reference count 1. -/
def GuestHeap.alloc (σ : GuestHeap) (v : PVal) : GuestHeap × Nat :=
  ({ next := σ.next + 1,
     cells := fun h => if h = σ.next then some (v, 1) else σ.cells h }, σ.next)

/-- Replace the value stored at a live handle, keeping its reference
count. -/
def GuestHeap.setVal (σ : GuestHeap) (h : Nat) (v : PVal) : GuestHeap :=
  { σ with cells := fun h' =>
      if h' = h then (σ.cells h).map (fun c => (v, c.2)) else σ.cells h' }

/-- Modelled from the spec: increment a handle's reference count
(`zeroperl_incref`). -/
def GuestHeap.incref (σ : GuestHeap) (h : Nat) : GuestHeap :=
  { σ with cells := fun h' =>
      if h' = h then (σ.cells h).map (fun c => (c.1, c.2 + 1)) else σ.cells h' }

/-- Modelled from the spec: decrement a handle's reference count and free
the cell when it reaches zero (`zeroperl_decref` / the free exports). -/
def GuestHeap.decref (σ : GuestHeap) (h : Nat) : GuestHeap :=
  { σ with cells := fun h' =>
      if h' = h then
        match σ.cells h with
        | some (v, rc) => if rc ≤ 1 then none else some (v, rc - 1)
        | none => none
      else σ.cells h' }

/-- The byte-level C-string truncation applied when a host string crosses
the boundary through `writeCString`/`readCString`: the guest sees only the
characters before the first NUL. -/
def cstr (s : String) : String :=
  String.mk (s.data.takeWhile (fun c => c ≠ Char.ofNat 0))

/-- Integer type tag reported by the guest for each value shape
(modelled from the spec's type-tag table; tag 8 is for code values, which
the host layer never constructs). -/
def typeCode : PVal → Nat
  | PVal.vundef => 0
  | PVal.vtrue => 1
  | PVal.vfalse => 2
  | PVal.vint _ => 3
  | PVal.vdouble _ => 4
  | PVal.vstring _ => 5
  | PVal.varray _ => 6
  | PVal.vhash _ => 7
  | PVal.vref _ => 9

/-- Modelled from the spec: the guest's stringification of a value, used
by `zeroperl_to_string`.  Only the string case is relied upon by the
round-trip property; aggregates and references stringify to an opaque
reference rendering. -/
def stringifyPVal : PVal → String
  | PVal.vundef => ("")
  | PVal.vtrue => ("1")
  | PVal.vfalse => ("")
  | PVal.vint n => toString n
  | PVal.vdouble q => toString q
  | PVal.vstring s => s
  | PVal.varray _ => ("ARRAY(ref)")
  | PVal.vhash _ => ("HASH(ref)")
  | PVal.vref t => ("REF(") ++ toString t ++ (")")

/-- Modelled from the spec: `zeroperl_new_int` and friends allocate a
fresh scalar. -/
def zeroperl_new_int (σ : GuestHeap) (n : Int) : GuestHeap × Nat :=
  σ.alloc (PVal.vint n)

/-- Modelled from the spec: allocate a fresh double scalar. -/
def zeroperl_new_double (σ : GuestHeap) (q : Rat) : GuestHeap × Nat :=
  σ.alloc (PVal.vdouble q)

/-- Modelled from the spec: allocate a fresh string scalar; the host
passes an explicit byte length, so NULs are preserved. -/
def zeroperl_new_string (σ : GuestHeap) (s : String) : GuestHeap × Nat :=
  σ.alloc (PVal.vstring s)

/-- Modelled from the spec: allocate a fresh boolean scalar. -/
def zeroperl_new_bool (σ : GuestHeap) (b : Nat) : GuestHeap × Nat :=
  σ.alloc (if b ≠ 0 then PVal.vtrue else PVal.vfalse)

/-- Modelled from the spec: allocate a fresh undef scalar. -/
def zeroperl_new_undef (σ : GuestHeap) : GuestHeap × Nat :=
  σ.alloc PVal.vundef

/-- Modelled from the spec: allocate a fresh empty array aggregate. -/
def zeroperl_new_array (σ : GuestHeap) : GuestHeap × Nat :=
  σ.alloc (PVal.varray [])

/-- Modelled from the spec: allocate a fresh empty hash aggregate. -/
def zeroperl_new_hash (σ : GuestHeap) : GuestHeap × Nat :=
  σ.alloc (PVal.vhash [])

/-- Modelled from the spec: numeric conversion to an integer; fails on
values with no numeric reading. -/
def zeroperl_to_int (σ : GuestHeap) (h : Nat) : Option Int :=
  match σ.get h with
  | some (PVal.vint n) => some n
  | some (PVal.vdouble q) => some q.floor
  | some PVal.vtrue => some 1
  | some PVal.vfalse => some 0
  | some PVal.vundef => some 0
  | _ => none

/-- Modelled from the spec: numeric conversion to a double. -/
def zeroperl_to_double (σ : GuestHeap) (h : Nat) : Option Rat :=
  match σ.get h with
  | some (PVal.vint n) => some (n : Rat)
  | some (PVal.vdouble q) => some q
  | some PVal.vtrue => some 1
  | some PVal.vfalse => some 0
  | some PVal.vundef => some 0
  | _ => none

/-- Modelled from the spec: stringification; returns `none` (a null
pointer) only for a dead handle. -/
def zeroperl_to_string (σ : GuestHeap) (h : Nat) : Option String :=
  (σ.get h).map stringifyPVal

/-- Modelled from the spec: Perl truth test. -/
def zeroperl_to_bool (σ : GuestHeap) (h : Nat) : Nat :=
  match σ.get h with
  | some PVal.vundef => 0
  | some PVal.vfalse => 0
  | some PVal.vtrue => 1
  | some (PVal.vint n) => if n = 0 then 0 else 1
  | some (PVal.vdouble q) => if q = 0 then 0 else 1
  | some (PVal.vstring s) => if s = ("") ∨ s = ("0") then 0 else 1
  | some _ => 1
  | none => 0

/-- Modelled from the spec: undef test. -/
def zeroperl_is_undef (σ : GuestHeap) (h : Nat) : Nat :=
  if σ.get h = some PVal.vundef then 1 else 0

/-- Modelled from the spec: reference test. -/
def zeroperl_is_ref (σ : GuestHeap) (h : Nat) : Nat :=
  match σ.get h with
  | some (PVal.vref _) => 1
  | _ => 0

/-- Modelled from the spec: report the type tag of a value (0 for a dead
handle). -/
def zeroperl_get_type (σ : GuestHeap) (h : Nat) : Nat :=
  match σ.get h with
  | some v => typeCode v
  | none => 0

/-- Modelled from the spec: create a reference scalar to a live value,
incrementing the referent's count; returns the null handle on a dead
target. -/
def zeroperl_new_ref (σ : GuestHeap) (h : Nat) : GuestHeap × Nat :=
  match σ.get h with
  | some _ => (σ.incref h).alloc (PVal.vref h)
  | none => (σ, 0)

/-- Modelled from the spec: dereference a reference scalar, returning the
referent (incremented, caller-owned); null handle otherwise. -/
def zeroperl_deref (σ : GuestHeap) (h : Nat) : GuestHeap × Nat :=
  match σ.get h with
  | some (PVal.vref t) => (σ.incref t, t)
  | _ => (σ, 0)

/-- Modelled from the spec: the generic scalar free export
(`zeroperl_value_free`) releases one reference. -/
def zeroperl_value_free (σ : GuestHeap) (h : Nat) : GuestHeap :=
  σ.decref h

/-- Modelled from the spec: append a value handle to an array aggregate;
the array takes its own reference on the element. -/
def zeroperl_array_push (σ : GuestHeap) (a : Nat) (h : Nat) : GuestHeap :=
  match σ.get a with
  | some (PVal.varray es) => (σ.setVal a (PVal.varray (es ++ [h]))).incref h
  | _ => σ

/-- Modelled from the spec: remove and return the last element of an
array (ownership transfers to the caller); null handle when empty or not
an array. -/
def zeroperl_array_pop (σ : GuestHeap) (a : Nat) : GuestHeap × Nat :=
  match σ.get a with
  | some (PVal.varray es) =>
    match es.getLast? with
    | some h => (σ.setVal a (PVal.varray es.dropLast), h)
    | none => (σ, 0)
  | _ => (σ, 0)

/-- Modelled from the spec: return the element at an index (incremented,
caller-owned); null handle when out of bounds or not an array. -/
def zeroperl_array_get (σ : GuestHeap) (a : Nat) (i : Nat) : GuestHeap × Nat :=
  match σ.get a with
  | some (PVal.varray es) =>
    if i < es.length then
      let h := es.getD i 0
      (σ.incref h, h)
    else (σ, 0)
  | _ => (σ, 0)

/-- Modelled from the spec: replace the element at an index (the array
takes a reference on the new element and drops its reference on the old
one); reports failure out of bounds. -/
def zeroperl_array_set (σ : GuestHeap) (a : Nat) (i : Nat) (h : Nat) :
    GuestHeap × Bool :=
  match σ.get a with
  | some (PVal.varray es) =>
    if i < es.length then
      let old := es.getD i 0
      ((((σ.setVal a (PVal.varray (es.set i h)))).incref h).decref old, true)
    else (σ, false)
  | _ => (σ, false)

/-- Modelled from the spec: number of elements of an array (0 otherwise). -/
def zeroperl_array_length (σ : GuestHeap) (a : Nat) : Nat :=
  match σ.get a with
  | some (PVal.varray es) => es.length
  | _ => 0

/-- Modelled from the spec: drop all elements of an array, releasing the
array's references on them. -/
def zeroperl_array_clear (σ : GuestHeap) (a : Nat) : GuestHeap :=
  match σ.get a with
  | some (PVal.varray es) => (es.foldl GuestHeap.decref σ).setVal a (PVal.varray [])
  | _ => σ

/-- Modelled from the spec: wrap an array aggregate as a reference
scalar, incrementing the array's count. -/
def zeroperl_array_to_value (σ : GuestHeap) (a : Nat) : GuestHeap × Nat :=
  match σ.get a with
  | some (PVal.varray _) => (σ.incref a).alloc (PVal.vref a)
  | _ => (σ, 0)

/-- Modelled from the spec: recover the array aggregate denoted by a
value (directly or through one reference), incremented and caller-owned. -/
def zeroperl_value_to_array (σ : GuestHeap) (h : Nat) : GuestHeap × Nat :=
  match σ.get h with
  | some (PVal.varray _) => (σ.incref h, h)
  | some (PVal.vref t) =>
    match σ.get t with
    | some (PVal.varray _) => (σ.incref t, t)
    | _ => (σ, 0)
  | _ => (σ, 0)

/-- Modelled from the spec: the array-specific free export releases the
container, not its elements. -/
def zeroperl_array_free (σ : GuestHeap) (a : Nat) : GuestHeap :=
  σ.decref a

/-- Modelled from the spec: set a key in a hash aggregate (replacing an
existing entry and dropping its reference, else appending); the hash takes
a reference on the value.  Fails on a non-hash handle. -/
def zeroperl_hash_set (σ : GuestHeap) (hp : Nat) (key : String) (h : Nat) :
    GuestHeap × Bool :=
  match σ.get hp with
  | some (PVal.vhash es) =>
    match es.lookup key with
    | some old =>
      ((((σ.setVal hp (PVal.vhash (es.map (fun e => if e.1 = key then (key, h) else e))))).incref h).decref old,
        true)
    | none =>
      ((σ.setVal hp (PVal.vhash (es ++ [(key, h)]))).incref h, true)
  | _ => (σ, false)

/-- Modelled from the spec: look a key up in a hash (incremented,
caller-owned); null handle when absent. -/
def zeroperl_hash_get (σ : GuestHeap) (hp : Nat) (key : String) : GuestHeap × Nat :=
  match σ.get hp with
  | some (PVal.vhash es) =>
    match es.lookup key with
    | some h => (σ.incref h, h)
    | none => (σ, 0)
  | _ => (σ, 0)

/-- Modelled from the spec: key existence test. -/
def zeroperl_hash_exists (σ : GuestHeap) (hp : Nat) (key : String) : Nat :=
  match σ.get hp with
  | some (PVal.vhash es) =>
    match es.lookup key with
    | some _ => 1
    | none => 0
  | _ => 0

/-- Modelled from the spec: delete a key, releasing the hash's reference
on the removed value; reports whether a key was removed. -/
def zeroperl_hash_delete (σ : GuestHeap) (hp : Nat) (key : String) : GuestHeap × Nat :=
  match σ.get hp with
  | some (PVal.vhash es) =>
    match es.lookup key with
    | some old =>
      ((σ.setVal hp (PVal.vhash (es.filter (fun e => e.1 ≠ key)))).decref old, 1)
    | none => (σ, 0)
  | _ => (σ, 0)

/-- Modelled from the spec: drop all entries of a hash, releasing its
references on the values. -/
def zeroperl_hash_clear (σ : GuestHeap) (hp : Nat) : GuestHeap :=
  match σ.get hp with
  | some (PVal.vhash es) =>
    ((es.map Prod.snd).foldl GuestHeap.decref σ).setVal hp (PVal.vhash [])
  | _ => σ

/-- Modelled from the spec: the hash's entry sequence in iteration
(insertion) order, as yielded by the guest's hash iterator exports. -/
def zeroperl_hash_entries (σ : GuestHeap) (hp : Nat) : List (String × Nat) :=
  match σ.get hp with
  | some (PVal.vhash es) => es
  | _ => []

/-- Modelled from the spec: wrap a hash aggregate as a reference scalar. -/
def zeroperl_hash_to_value (σ : GuestHeap) (hp : Nat) : GuestHeap × Nat :=
  match σ.get hp with
  | some (PVal.vhash _) => (σ.incref hp).alloc (PVal.vref hp)
  | _ => (σ, 0)

/-- Modelled from the spec: recover the hash aggregate denoted by a value
(directly or through one reference), incremented and caller-owned. -/
def zeroperl_value_to_hash (σ : GuestHeap) (h : Nat) : GuestHeap × Nat :=
  match σ.get h with
  | some (PVal.vhash _) => (σ.incref h, h)
  | some (PVal.vref t) =>
    match σ.get t with
    | some (PVal.vhash _) => (σ.incref t, t)
    | _ => (σ, 0)
  | _ => (σ, 0)

/-- Modelled from the spec: the hash-specific free export releases the
container, not its entries. -/
def zeroperl_hash_free (σ : GuestHeap) (hp : Nat) : GuestHeap :=
  σ.decref hp

/-- `mapPerlType` (main module): maps an integer type tag to its name,
falling back to undef. -/
def mapPerlType (tc : Nat) : String :=
  ([ ("undef"), ("true"), ("false"), ("int"), ("double"),
     ("string"), ("array"), ("hash"), ("code"), ("ref") ]).getD tc ("undef")

/-- Host-native primitive results of `project()` (`JSPrimitive` in the
main module; numbers modelled as rationals, null and undefined
identified). -/
inductive JSV
  | jnull
  | jbool (b : Bool)
  | jnum (q : Rat)
  | jstr (s : String)
deriving DecidableEq

/-- Host-side wrapper for a Perl scalar value (class `PerlValue`): the
handle and the disposed flag. -/
structure PerlValue where
  ptr : Nat
  disposed : Bool
deriving DecidableEq

/-- `PerlValue.checkDisposed`: every operation asserts not-disposed
first. -/
def PerlValue.checkDisposed (p : PerlValue) : Except String Unit :=
  if p.disposed then Except.error ("PerlValue has been disposed") else Except.ok ()

/-- `PerlValue.getPtr`. -/
def PerlValue.getPtr (p : PerlValue) : Except String Nat :=
  match p.checkDisposed with
  | Except.error e => Except.error e
  | Except.ok _ => Except.ok p.ptr

/-- `PerlValue.toInt` (the out-pointer plumbing through `malloc`/`free`
and the data view is abstracted into the modelled export's return value). -/
def PerlValue.toInt (σ : GuestHeap) (p : PerlValue) : Except String Int :=
  match p.checkDisposed with
  | Except.error e => Except.error e
  | Except.ok _ =>
    match zeroperl_to_int σ p.ptr with
    | some n => Except.ok n
    | none => Except.error ("Failed to convert value to int")

/-- `PerlValue.toDouble`. -/
def PerlValue.toDouble (σ : GuestHeap) (p : PerlValue) : Except String Rat :=
  match p.checkDisposed with
  | Except.error e => Except.error e
  | Except.ok _ =>
    match zeroperl_to_double σ p.ptr with
    | some q => Except.ok q
    | none => Except.error ("Failed to convert value to double")

/-- `PerlValue.toString`: a null string pointer yields the empty string. -/
def PerlValue.toString (σ : GuestHeap) (p : PerlValue) : Except String String :=
  match p.checkDisposed with
  | Except.error e => Except.error e
  | Except.ok _ =>
    match zeroperl_to_string σ p.ptr with
    | some s => Except.ok s
    | none => Except.ok ("")

/-- `PerlValue.toBoolean`. -/
def PerlValue.toBoolean (σ : GuestHeap) (p : PerlValue) : Except String Bool :=
  match p.checkDisposed with
  | Except.error e => Except.error e
  | Except.ok _ => Except.ok (zeroperl_to_bool σ p.ptr ≠ 0)

/-- `PerlValue.isUndef`. -/
def PerlValue.isUndef (σ : GuestHeap) (p : PerlValue) : Except String Bool :=
  match p.checkDisposed with
  | Except.error e => Except.error e
  | Except.ok _ => Except.ok (zeroperl_is_undef σ p.ptr ≠ 0)

/-- `PerlValue.isRef`. -/
def PerlValue.isRef (σ : GuestHeap) (p : PerlValue) : Except String Bool :=
  match p.checkDisposed with
  | Except.error e => Except.error e
  | Except.ok _ => Except.ok (zeroperl_is_ref σ p.ptr ≠ 0)

/-- `PerlValue.getType`. -/
def PerlValue.getType (σ : GuestHeap) (p : PerlValue) : Except String String :=
  match p.checkDisposed with
  | Except.error e => Except.error e
  | Except.ok _ => Except.ok (mapPerlType (zeroperl_get_type σ p.ptr))

/-- `PerlValue.project`: undef to null, booleans to booleans, int/double
to number via `toDouble`, string (and every other type) to its string
form. -/
def PerlValue.project (σ : GuestHeap) (p : PerlValue) : Except String JSV :=
  match p.checkDisposed with
  | Except.error e => Except.error e
  | Except.ok _ =>
    match p.isUndef σ with
    | Except.error e => Except.error e
    | Except.ok true => Except.ok JSV.jnull
    | Except.ok false =>
      match p.getType σ with
      | Except.error e => Except.error e
      | Except.ok t =>
        if t = ("true") then Except.ok (JSV.jbool true)
        else if t = ("false") then Except.ok (JSV.jbool false)
        else if t = ("int") ∨ t = ("double") then
          match p.toDouble σ with
          | Except.error e => Except.error e
          | Except.ok q => Except.ok (JSV.jnum q)
        else
          match p.toString σ with
          | Except.error e => Except.error e
          | Except.ok s => Except.ok (JSV.jstr s)

/-- `PerlValue.createRef`. -/
def PerlValue.createRef (σ : GuestHeap) (p : PerlValue) :
    Except String (GuestHeap × PerlValue) :=
  match p.checkDisposed with
  | Except.error e => Except.error e
  | Except.ok _ =>
    let r := zeroperl_new_ref σ p.ptr
    if r.2 = 0 then Except.error ("Failed to create reference")
    else Except.ok (r.1, { ptr := r.2, disposed := false })

/-- `PerlValue.deref`. -/
def PerlValue.deref (σ : GuestHeap) (p : PerlValue) :
    Except String (GuestHeap × PerlValue) :=
  match p.checkDisposed with
  | Except.error e => Except.error e
  | Except.ok _ =>
    let r := zeroperl_deref σ p.ptr
    if r.2 = 0 then Except.error ("Failed to dereference value")
    else Except.ok (r.1, { ptr := r.2, disposed := false })

/-- `PerlValue.incref`. -/
def PerlValue.incref (σ : GuestHeap) (p : PerlValue) : Except String GuestHeap :=
  match p.checkDisposed with
  | Except.error e => Except.error e
  | Except.ok _ => Except.ok (σ.incref p.ptr)

/-- `PerlValue.decref`. -/
def PerlValue.decref (σ : GuestHeap) (p : PerlValue) : Except String GuestHeap :=
  match p.checkDisposed with
  | Except.error e => Except.error e
  | Except.ok _ => Except.ok (σ.decref p.ptr)

/-- `PerlValue.dispose`: a no-op when already disposed, otherwise invokes
the guest's `zeroperl_value_free` once and marks the proxy disposed.  The
final component reports whether the free export was invoked. -/
def PerlValue.dispose (σ : GuestHeap) (p : PerlValue) :
    GuestHeap × PerlValue × Bool :=
  if p.disposed then (σ, p, false)
  else (zeroperl_value_free σ p.ptr, { p with disposed := true }, true)

/-- Host-side wrapper for a Perl array (class `PerlArray`). -/
structure PerlArray where
  ptr : Nat
  disposed : Bool
deriving DecidableEq

/-- `PerlArray.checkDisposed`. -/
def PerlArray.checkDisposed (a : PerlArray) : Except String Unit :=
  if a.disposed then Except.error ("PerlArray has been disposed") else Except.ok ()

/-- `PerlArray.getPtr`. -/
def PerlArray.getPtr (a : PerlArray) : Except String Nat :=
  match a.checkDisposed with
  | Except.error e => Except.error e
  | Except.ok _ => Except.ok a.ptr

/-- `PerlArray.pop`. -/
def PerlArray.pop (σ : GuestHeap) (a : PerlArray) :
    Except String (GuestHeap × Option PerlValue) :=
  match a.checkDisposed with
  | Except.error e => Except.error e
  | Except.ok _ =>
    let r := zeroperl_array_pop σ a.ptr
    if r.2 = 0 then Except.ok (r.1, none)
    else Except.ok (r.1, some { ptr := r.2, disposed := false })

/-- `PerlArray.get`. -/
def PerlArray.get (σ : GuestHeap) (a : PerlArray) (i : Nat) :
    Except String (GuestHeap × Option PerlValue) :=
  match a.checkDisposed with
  | Except.error e => Except.error e
  | Except.ok _ =>
    let r := zeroperl_array_get σ a.ptr i
    if r.2 = 0 then Except.ok (r.1, none)
    else Except.ok (r.1, some { ptr := r.2, disposed := false })

/-- `PerlArray.getLength`. -/
def PerlArray.getLength (σ : GuestHeap) (a : PerlArray) : Except String Nat :=
  match a.checkDisposed with
  | Except.error e => Except.error e
  | Except.ok _ => Except.ok (zeroperl_array_length σ a.ptr)

/-- `PerlArray.clear`. -/
def PerlArray.clear (σ : GuestHeap) (a : PerlArray) : Except String GuestHeap :=
  match a.checkDisposed with
  | Except.error e => Except.error e
  | Except.ok _ => Except.ok (zeroperl_array_clear σ a.ptr)

/-- `PerlArray.toValue`: wrap the array as a reference scalar. -/
def PerlArray.toValue (σ : GuestHeap) (a : PerlArray) :
    Except String (GuestHeap × PerlValue) :=
  match a.checkDisposed with
  | Except.error e => Except.error e
  | Except.ok _ =>
    let r := zeroperl_array_to_value σ a.ptr
    if r.2 = 0 then Except.error ("Failed to convert array to value")
    else Except.ok (r.1, { ptr := r.2, disposed := false })

/-- The body of `PerlArray.project`'s loop from index `i` for `n` more
indices: out-of-bounds (null) slots project to null, live slots are
projected and the intermediate scalar wrapper disposed. -/
def projectFrom (aptr : Nat) : Nat → Nat → GuestHeap →
    Except String (GuestHeap × List JSV)
  | _, 0, σ => Except.ok (σ, [])
  | i, Nat.succ n, σ =>
    let r := zeroperl_array_get σ aptr i
    if r.2 = 0 then
      match projectFrom aptr (i + 1) n r.1 with
      | Except.error e => Except.error e
      | Except.ok (σ', l) => Except.ok (σ', JSV.jnull :: l)
    else
      match PerlValue.project r.1 { ptr := r.2, disposed := false } with
      | Except.error e => Except.error e
      | Except.ok jv =>
        let d := PerlValue.dispose r.1 { ptr := r.2, disposed := false }
        match projectFrom aptr (i + 1) n d.1 with
        | Except.error e => Except.error e
        | Except.ok (σ', l) => Except.ok (σ', jv :: l)

/-- `PerlArray.project`: deep-convert every element to a host-native
primitive, disposing the intermediate scalar wrappers. -/
def PerlArray.project (σ : GuestHeap) (a : PerlArray) :
    Except String (GuestHeap × List JSV) :=
  match a.checkDisposed with
  | Except.error e => Except.error e
  | Except.ok _ => projectFrom a.ptr 0 (zeroperl_array_length σ a.ptr) σ

/-- `PerlArray.fromValue`: recover an array proxy from a value handle;
null when the value does not denote an array. -/
def PerlArray.fromValue (σ : GuestHeap) (v : PerlValue) :
    Except String (GuestHeap × Option PerlArray) :=
  match v.getPtr with
  | Except.error e => Except.error e
  | Except.ok h =>
    let r := zeroperl_value_to_array σ h
    if r.2 = 0 then Except.ok (r.1, none)
    else Except.ok (r.1, some { ptr := r.2, disposed := false })

/-- `PerlArray.dispose`: a no-op when already disposed, otherwise invokes
the guest's `zeroperl_array_free` once; the final component reports
whether the free export was invoked. -/
def PerlArray.dispose (σ : GuestHeap) (a : PerlArray) :
    GuestHeap × PerlArray × Bool :=
  if a.disposed then (σ, a, false)
  else (zeroperl_array_free σ a.ptr, { a with disposed := true }, true)

/-- Host-side wrapper for a Perl hash (class `PerlHash`). -/
structure PerlHash where
  ptr : Nat
  disposed : Bool
deriving DecidableEq

/-- `PerlHash.checkDisposed`. -/
def PerlHash.checkDisposed (h : PerlHash) : Except String Unit :=
  if h.disposed then Except.error ("PerlHash has been disposed") else Except.ok ()

/-- `PerlHash.getPtr`. -/
def PerlHash.getPtr (h : PerlHash) : Except String Nat :=
  match h.checkDisposed with
  | Except.error e => Except.error e
  | Except.ok _ => Except.ok h.ptr

/-- `PerlHash.get`: the key crosses the boundary as a C string. -/
def PerlHash.get (σ : GuestHeap) (h : PerlHash) (key : String) :
    Except String (GuestHeap × Option PerlValue) :=
  match h.checkDisposed with
  | Except.error e => Except.error e
  | Except.ok _ =>
    let r := zeroperl_hash_get σ h.ptr (cstr key)
    if r.2 = 0 then Except.ok (r.1, none)
    else Except.ok (r.1, some { ptr := r.2, disposed := false })

/-- `PerlHash.has`. -/
def PerlHash.has (σ : GuestHeap) (h : PerlHash) (key : String) : Except String Bool :=
  match h.checkDisposed with
  | Except.error e => Except.error e
  | Except.ok _ => Except.ok (zeroperl_hash_exists σ h.ptr (cstr key) ≠ 0)

/-- `PerlHash.delete`. -/
def PerlHash.delete (σ : GuestHeap) (h : PerlHash) (key : String) :
    Except String (GuestHeap × Bool) :=
  match h.checkDisposed with
  | Except.error e => Except.error e
  | Except.ok _ =>
    let r := zeroperl_hash_delete σ h.ptr (cstr key)
    Except.ok (r.1, r.2 ≠ 0)

/-- `PerlHash.clear`. -/
def PerlHash.clear (σ : GuestHeap) (h : PerlHash) : Except String GuestHeap :=
  match h.checkDisposed with
  | Except.error e => Except.error e
  | Except.ok _ => Except.ok (zeroperl_hash_clear σ h.ptr)

/-- `PerlHash.toValue`. -/
def PerlHash.toValue (σ : GuestHeap) (h : PerlHash) :
    Except String (GuestHeap × PerlValue) :=
  match h.checkDisposed with
  | Except.error e => Except.error e
  | Except.ok _ =>
    let r := zeroperl_hash_to_value σ h.ptr
    if r.2 = 0 then Except.error ("Failed to convert hash to value")
    else Except.ok (r.1, { ptr := r.2, disposed := false })

/-- `PerlHash.entries`: the iterator's yield sequence (each yielded value
is caller-owned; the per-yield reference bookkeeping is performed by the
consumers below). -/
def PerlHash.entries (σ : GuestHeap) (h : PerlHash) :
    Except String (List (String × Nat)) :=
  match h.checkDisposed with
  | Except.error e => Except.error e
  | Except.ok _ => Except.ok (zeroperl_hash_entries σ h.ptr)

/-- The body of `PerlHash.project`'s loop over the entry sequence: each
yielded value is taken (incremented), projected, and the intermediate
wrapper disposed; the key is read back as a C string. -/
def projectEntries : GuestHeap → List (String × Nat) →
    Except String (GuestHeap × List (String × JSV))
  | σ, [] => Except.ok (σ, [])
  | σ, (k, vh) :: rest =>
    let σ₀ := σ.incref vh
    match PerlValue.project σ₀ { ptr := vh, disposed := false } with
    | Except.error e => Except.error e
    | Except.ok jv =>
      let d := PerlValue.dispose σ₀ { ptr := vh, disposed := false }
      match projectEntries d.1 rest with
      | Except.error e => Except.error e
      | Except.ok (σ', l) => Except.ok (σ', (k, jv) :: l)

/-- `PerlHash.project`: deep-convert every entry's value to a host-native
primitive, keyed by the entry's key, in iteration order. -/
def PerlHash.project (σ : GuestHeap) (h : PerlHash) :
    Except String (GuestHeap × List (String × JSV)) :=
  match h.checkDisposed with
  | Except.error e => Except.error e
  | Except.ok _ => projectEntries σ (zeroperl_hash_entries σ h.ptr)

/-- `PerlHash.fromValue`. -/
def PerlHash.fromValue (σ : GuestHeap) (v : PerlValue) :
    Except String (GuestHeap × Option PerlHash) :=
  match v.getPtr with
  | Except.error e => Except.error e
  | Except.ok h =>
    let r := zeroperl_value_to_hash σ h
    if r.2 = 0 then Except.ok (r.1, none)
    else Except.ok (r.1, some { ptr := r.2, disposed := false })

/-- `PerlHash.dispose`: a no-op when already disposed, otherwise invokes
the guest's `zeroperl_hash_free` once; the final component reports whether
the free export was invoked. -/
def PerlHash.dispose (σ : GuestHeap) (h : PerlHash) :
    GuestHeap × PerlHash × Bool :=
  if h.disposed then (σ, h, false)
  else (zeroperl_hash_free σ h.ptr, { h with disposed := true }, true)

/-- Host values convertible to guest values (`PerlConvertible` in the main
module): an existing proxy, null/undefined (identified, as the source
treats them by one branch), booleans, numbers (rationals), strings,
ordered sequences and string-keyed maps. -/
inductive JSConv
  | cval (p : PerlValue)
  | cnull
  | cbool (b : Bool)
  | cnum (q : Rat)
  | cstring (s : String)
  | carr (xs : List JSConv)
  | cobj (es : List (String × JSConv))

/-- `ZeroPerl.createInt` (the source floors its JavaScript number; the
model receives the integer directly). -/
def ZeroPerl.createInt (σ : GuestHeap) (n : Int) : Except String (GuestHeap × PerlValue) :=
  let r := zeroperl_new_int σ n
  if r.2 = 0 then Except.error ("Failed to create integer value")
  else Except.ok (r.1, { ptr := r.2, disposed := false })

/-- `ZeroPerl.createDouble`. -/
def ZeroPerl.createDouble (σ : GuestHeap) (q : Rat) : Except String (GuestHeap × PerlValue) :=
  let r := zeroperl_new_double σ q
  if r.2 = 0 then Except.error ("Failed to create double value")
  else Except.ok (r.1, { ptr := r.2, disposed := false })

/-- `ZeroPerl.createString` (passes an explicit byte length, so the full
string including NULs reaches the guest). -/
def ZeroPerl.createString (σ : GuestHeap) (s : String) : Except String (GuestHeap × PerlValue) :=
  let r := zeroperl_new_string σ s
  if r.2 = 0 then Except.error ("Failed to create string value")
  else Except.ok (r.1, { ptr := r.2, disposed := false })

/-- `ZeroPerl.createBool`. -/
def ZeroPerl.createBool (σ : GuestHeap) (b : Bool) : Except String (GuestHeap × PerlValue) :=
  let r := zeroperl_new_bool σ (if b then 1 else 0)
  if r.2 = 0 then Except.error ("Failed to create boolean value")
  else Except.ok (r.1, { ptr := r.2, disposed := false })

/-- `ZeroPerl.createUndef`. -/
def ZeroPerl.createUndef (σ : GuestHeap) : Except String (GuestHeap × PerlValue) :=
  let r := zeroperl_new_undef σ
  if r.2 = 0 then Except.error ("Failed to create undef value")
  else Except.ok (r.1, { ptr := r.2, disposed := false })

/-- The `finally` disposal of the temporary wrapper in `push`/`set`:
the temporary is disposed unless the caller passed an existing proxy
(`if (!(value instanceof PerlValue)) perlValue.dispose()`). -/
def disposeTemp (σ : GuestHeap) (value : JSConv) (pv : PerlValue) : GuestHeap :=
  match value with
  | JSConv.cval _ => σ
  | _ => (PerlValue.dispose σ pv).1

mutual

/-- `ZeroPerl.toPerlValue` (main module lines 3158-3179): proxies pass
through; null/undefined, booleans, integral numbers, non-integral numbers
and strings allocate the corresponding scalar; arrays and maps allocate an
empty aggregate (`createArray`/`createHash` inlined — the disposed check
of the population loop's `push`/`set` on the fresh proxy trivially
passes), populate it by recursive conversion, wrap it as a reference, and
dispose the intermediate aggregate proxy. -/
def ZeroPerl.toPerlValue (σ : GuestHeap) : JSConv → Except String (GuestHeap × PerlValue)
  | JSConv.cval p => Except.ok (σ, p)
  | JSConv.cnull => ZeroPerl.createUndef σ
  | JSConv.cbool b => ZeroPerl.createBool σ b
  | JSConv.cnum q =>
    if q.isInt then ZeroPerl.createInt σ q.num else ZeroPerl.createDouble σ q
  | JSConv.cstring s => ZeroPerl.createString σ s
  | JSConv.carr xs =>
    let r := zeroperl_new_array σ
    if r.2 = 0 then Except.error ("Failed to create array")
    else
      match pushAllConv r.1 r.2 xs with
      | Except.error e => Except.error e
      | Except.ok σ₁ =>
        match PerlArray.toValue σ₁ { ptr := r.2, disposed := false } with
        | Except.error e => Except.error e
        | Except.ok (σ₂, val) =>
          let d := PerlArray.dispose σ₂ { ptr := r.2, disposed := false }
          Except.ok (d.1, val)
  | JSConv.cobj es =>
    let r := zeroperl_new_hash σ
    if r.2 = 0 then Except.error ("Failed to create hash")
    else
      match setAllConv r.1 r.2 es with
      | Except.error e => Except.error e
      | Except.ok σ₁ =>
        match PerlHash.toValue σ₁ { ptr := r.2, disposed := false } with
        | Except.error e => Except.error e
        | Except.ok (σ₂, val) =>
          let d := PerlHash.dispose σ₂ { ptr := r.2, disposed := false }
          Except.ok (d.1, val)

/-- The population loop of `ZeroPerl.createArray`: for each value, the
body of `PerlArray.push` on the fresh array — convert, append the handle
(the guest takes its own reference), dispose the temporary wrapper unless
the caller passed an existing proxy. -/
def pushAllConv (σ : GuestHeap) (aptr : Nat) :
    List JSConv → Except String GuestHeap
  | [] => Except.ok σ
  | v :: rest =>
    match ZeroPerl.toPerlValue σ v with
    | Except.error e => Except.error e
    | Except.ok (σ₁, pv) =>
      let σ₂ := zeroperl_array_push σ₁ aptr pv.ptr
      pushAllConv (disposeTemp σ₂ v pv) aptr rest

/-- The population loop of `ZeroPerl.createHash`: for each entry, the
body of `PerlHash.set` on the fresh hash — convert, write the key through
the C-string boundary (truncating at the first NUL), store, dispose the
temporary wrapper unless the caller passed an existing proxy; a failed
store raises after the `finally` disposal. -/
def setAllConv (σ : GuestHeap) (hptr : Nat) :
    List (String × JSConv) → Except String GuestHeap
  | [] => Except.ok σ
  | (k, v) :: rest =>
    match ZeroPerl.toPerlValue σ v with
    | Except.error e => Except.error e
    | Except.ok (σ₁, pv) =>
      let r := zeroperl_hash_set σ₁ hptr (cstr k) pv.ptr
      let σ₂ := disposeTemp r.1 v pv
      if r.2 then setAllConv σ₂ hptr rest
      else Except.error (("Failed to set hash key ") ++ k)

end

/-- `ZeroPerl.createArray`: allocate an empty array aggregate and push
each value. -/
def ZeroPerl.createArray (σ : GuestHeap) (values : List JSConv) :
    Except String (GuestHeap × PerlArray) :=
  let r := zeroperl_new_array σ
  if r.2 = 0 then Except.error ("Failed to create array")
  else
    match pushAllConv r.1 r.2 values with
    | Except.error e => Except.error e
    | Except.ok σ₁ => Except.ok (σ₁, { ptr := r.2, disposed := false })

/-- `ZeroPerl.createHash`: allocate an empty hash aggregate and set each
entry in insertion order. -/
def ZeroPerl.createHash (σ : GuestHeap) (entries : List (String × JSConv)) :
    Except String (GuestHeap × PerlHash) :=
  let r := zeroperl_new_hash σ
  if r.2 = 0 then Except.error ("Failed to create hash")
  else
    match setAllConv r.1 r.2 entries with
    | Except.error e => Except.error e
    | Except.ok σ₁ => Except.ok (σ₁, { ptr := r.2, disposed := false })

/-- `PerlArray.push`: convert the value, append its handle (the guest
takes its own reference), then dispose the temporary wrapper unless the
caller passed an existing proxy. -/
def PerlArray.push (σ : GuestHeap) (arr : PerlArray) (value : JSConv) :
    Except String GuestHeap :=
  match arr.checkDisposed with
  | Except.error e => Except.error e
  | Except.ok _ =>
    match ZeroPerl.toPerlValue σ value with
    | Except.error e => Except.error e
    | Except.ok (σ₁, pv) =>
      let σ₂ := zeroperl_array_push σ₁ arr.ptr pv.ptr
      Except.ok (disposeTemp σ₂ value pv)

/-- `PerlHash.set`: convert the value, write the key through the C-string
boundary (truncating at the first NUL), store it in the hash, then (in the
source's `finally`) free the key buffer and dispose the temporary wrapper
unless the caller passed an existing proxy. -/
def PerlHash.set (σ : GuestHeap) (h : PerlHash) (key : String) (value : JSConv) :
    Except String GuestHeap :=
  match h.checkDisposed with
  | Except.error e => Except.error e
  | Except.ok _ =>
    match ZeroPerl.toPerlValue σ value with
    | Except.error e => Except.error e
    | Except.ok (σ₁, pv) =>
      let r := zeroperl_hash_set σ₁ h.ptr (cstr key) pv.ptr
      let σ₂ := disposeTemp r.1 value pv
      if r.2 then Except.ok σ₂
      else Except.error (("Failed to set hash key ") ++ key)

/-- `PerlArray.set`: convert the value, store it at the index (the guest
takes a reference and drops the old element's), then dispose the temporary
wrapper unless the caller passed an existing proxy. -/
def PerlArray.set (σ : GuestHeap) (arr : PerlArray) (i : Nat) (value : JSConv) :
    Except String GuestHeap :=
  match arr.checkDisposed with
  | Except.error e => Except.error e
  | Except.ok _ =>
    match ZeroPerl.toPerlValue σ value with
    | Except.error e => Except.error e
    | Except.ok (σ₁, pv) =>
      let r := zeroperl_array_set σ₁ arr.ptr i pv.ptr
      let σ₂ := disposeTemp r.1 value pv
      if r.2 then Except.ok σ₂
      else Except.error (("Failed to set array element at index ") ++ toString i)

/- ===================================================================
   Part D.  Host-function dispatch, guest-call contexts, eval/runFile
   =================================================================== -/

/-- `ZeroPerl.setHostError` (main module lines 3029-3035): the message is
written through `writeCString` — which returns the null pointer for the
empty string — and only a non-null pointer is installed via the guest's
`zeroperl_set_host_error` export; the guest sees the bytes before the
first NUL.  The host-error slot is modelled as an `Option String`. -/
def setHostError (errSlot : Option String) (msg : String) : Option String :=
  if msg = ("") then errSlot else some (cstr msg)

/-- Outcome of invoking a registered host function: it returns a proxy,
returns nothing, or throws with a message. -/
inductive HostOutcome
  | ret (p : PerlValue)
  | void
  | raise (msg : String)

/-- A registered host function, observed through the argument proxies it
is invoked with. -/
def HostFn : Type := List PerlValue → HostOutcome

/-- The argument-extraction loop of `handleHostCall` (main module lines
3002-3011): read `argc` 4-byte slots at the argv pointer and keep the
non-zero handles, in slot order.  `argv` is the slot contents. -/
def readSlots (argv : List Nat) (argc : Nat) : List Nat :=
  (List.range argc).filterMap (fun i =>
    let v := argv.getD i 0
    if v = 0 then none else some v)

/-- `ZeroPerl.handleHostCall` (main module lines 2993-3027): look the
function id up, wrap the non-zero argument handles in scalar proxies,
invoke the function; a returned proxy's handle is passed back, a void
return allocates a fresh undef, and any thrown error is caught, installed
via `setHostError`, and turned into the null handle — nothing propagates
across the boundary.  Returns the heap, the host-error slot, and the
handle returned to the guest. -/
def handleHostCall (σ : GuestHeap) (errSlot : Option String)
    (hostFunctions : List (Nat × HostFn)) (funcId : Nat) (argc : Nat)
    (argv : List Nat) : GuestHeap × Option String × Nat :=
  match hostFunctions.lookup funcId with
  | none =>
    (σ, setHostError errSlot (("Host function ") ++ toString funcId ++ (" not found")), 0)
  | some func =>
    let args := (readSlots argv argc).map (fun h => PerlValue.mk h false)
    match func args with
    | HostOutcome.raise msg => (σ, setHostError errSlot msg, 0)
    | HostOutcome.ret p =>
      if p.disposed then (σ, setHostError errSlot ("PerlValue has been disposed"), 0)
      else (σ, errSlot, p.ptr)
    | HostOutcome.void =>
      let r := zeroperl_new_undef σ
      if r.2 = 0 then (r.1, setHostError errSlot ("Failed to allocate return value"), 0)
      else (r.1, errSlot, r.2)

/-- `PerlContext` of the main module. -/
inductive PerlContext
  | void
  | scalar
  | list
deriving DecidableEq

/-- `mapContext`. -/
def mapContext : PerlContext → Nat
  | PerlContext.void => 0
  | PerlContext.scalar => 1
  | PerlContext.list => 2

/-- The count-prefixed result record allocated by the guest for a
subroutine call: its own address, the address of its values array, and
the `count` value handles. -/
structure ResultRecord where
  ptr : Nat
  valuesArrayPtr : Nat
  values : List Nat
deriving DecidableEq

/-- Behaviour of the guest's `zeroperl_call` export for one invocation
(modelled from the spec): it returns a result record, the null pointer,
raises the process-exit signal, or throws something else. -/
inductive CallBehavior
  | record (r : ResultRecord)
  | zero
  | procExit (code : Int)
  | raise (msg : String)

/-- Guest-memory release activity observed during `ZeroPerl.call`:
`freed` records `exports.free` calls, `valueFreed` records
`zeroperl_value_free` (proxy disposal) calls. -/
structure CallEffects where
  freed : List Nat
  valueFreed : List Nat
deriving DecidableEq

/-- The value returned by `ZeroPerl.call` for the three contexts. -/
inductive CallOutcomeV
  | onone
  | oscalar (p : Option PerlValue)
  | olist (ps : List PerlValue)
deriving DecidableEq

/-- The result-extraction loop of `ZeroPerl.call` (main module lines
3326-3333): read the count-prefixed record's slots through
`zeroperl_result_get` and keep the non-zero handles in order. -/
def extractResults (values : List Nat) : List Nat :=
  (List.range values.length).filterMap (fun i =>
    let v := values.getD i 0
    if v = 0 then none else some v)

/-- `ZeroPerl.call` (main module lines 3296-3356) after the name/argv
marshaling: on a null result pointer or a caught process-exit signal the
context's default is returned; otherwise the record's handles are
extracted, the record's values array and the record itself are freed, and
the context decides what is returned — void disposes every result, scalar
keeps only the first, list keeps all.  The `finally` block frees the name
buffer and (when allocated) the argv buffer; a non-process-exit throw from
the guest propagates (its `finally` effects are not observable through
`Except`). -/
def ZeroPerl.call (namePtr : Nat) (argvPtr : Nat) (beh : CallBehavior)
    (context : PerlContext) : Except String (CallOutcomeV × CallEffects) :=
  let fin : List Nat := if argvPtr ≠ 0 then [namePtr, argvPtr] else [namePtr]
  match beh with
  | CallBehavior.raise msg => Except.error msg
  | CallBehavior.procExit _ =>
    match context with
    | PerlContext.void => Except.ok (CallOutcomeV.onone, { freed := fin, valueFreed := [] })
    | PerlContext.scalar =>
      Except.ok (CallOutcomeV.oscalar none, { freed := fin, valueFreed := [] })
    | PerlContext.list =>
      Except.ok (CallOutcomeV.olist [], { freed := fin, valueFreed := [] })
  | CallBehavior.zero =>
    match context with
    | PerlContext.void => Except.ok (CallOutcomeV.onone, { freed := fin, valueFreed := [] })
    | PerlContext.scalar =>
      Except.ok (CallOutcomeV.oscalar none, { freed := fin, valueFreed := [] })
    | PerlContext.list =>
      Except.ok (CallOutcomeV.olist [], { freed := fin, valueFreed := [] })
  | CallBehavior.record r =>
    let results := (extractResults r.values).map (fun h => PerlValue.mk h false)
    let recFreed : List Nat :=
      (if r.valuesArrayPtr ≠ 0 then [r.valuesArrayPtr] else []) ++ [r.ptr]
    match context with
    | PerlContext.void =>
      Except.ok (CallOutcomeV.onone,
        { freed := recFreed ++ fin, valueFreed := results.map PerlValue.ptr })
    | PerlContext.scalar =>
      Except.ok (CallOutcomeV.oscalar results.head?,
        { freed := recFreed ++ fin, valueFreed := [] })
    | PerlContext.list =>
      Except.ok (CallOutcomeV.olist results,
        { freed := recFreed ++ fin, valueFreed := [] })

/-- `ZeroPerlResult` of the main module. -/
structure ZeroPerlResult where
  success : Bool
  error : Option String
  exitCode : Int
deriving DecidableEq

/-- Behaviour of the guest's `zeroperl_eval` / `zeroperl_run_file` export
for one invocation (modelled from the spec): it returns an exit code,
raises the process-exit signal (`WASIProcExit` in src/wasi/abi.ts lines
245-253, carrying the exit code), or throws something else. -/
inductive GuestRun
  | exit (code : Int)
  | procExit (code : Int)
  | raise (msg : String)

/-- `ZeroPerl.eval` (main module lines 3363-3394): a non-zero returned
exit code yields a failure outcome carrying `getLastError()`; a caught
`WASIProcExit` yields a failure outcome with the signal's code when
non-zero, else a success outcome — it is not re-raised; any other throw
propagates. -/
def ZeroPerl.eval (disposed : Bool) (run : GuestRun) (lastError : String) :
    Except String ZeroPerlResult :=
  if disposed then Except.error ("ZeroPerl instance has been disposed")
  else
    match run with
    | GuestRun.exit c =>
      if c ≠ 0 then Except.ok { success := false, error := some lastError, exitCode := c }
      else Except.ok { success := true, error := none, exitCode := 0 }
    | GuestRun.procExit c =>
      if c ≠ 0 then Except.ok { success := false, error := some lastError, exitCode := c }
      else Except.ok { success := true, error := none, exitCode := 0 }
    | GuestRun.raise m => Except.error m

/-- `ZeroPerl.runFile` (main module lines 3401-3432): identical outcome
handling to `ZeroPerl.eval`. -/
def ZeroPerl.runFile (disposed : Bool) (run : GuestRun) (lastError : String) :
    Except String ZeroPerlResult :=
  if disposed then Except.error ("ZeroPerl instance has been disposed")
  else
    match run with
    | GuestRun.exit c =>
      if c ≠ 0 then Except.ok { success := false, error := some lastError, exitCode := c }
      else Except.ok { success := true, error := none, exitCode := 0 }
    | GuestRun.procExit c =>
      if c ≠ 0 then Except.ok { success := false, error := some lastError, exitCode := c }
      else Except.ok { success := true, error := none, exitCode := 0 }
    | GuestRun.raise m => Except.error m

/- ===================================================================
   Part E.  Round-trip pipelines (for the conversion property)
   =================================================================== -/

/-- Host-native primitives as conversion inputs. -/
inductive JSPrim
  | pnull
  | pbool (b : Bool)
  | pnum (q : Rat)
  | pstr (s : String)
deriving DecidableEq

/-- A primitive as a convertible value. -/
def embedPrim : JSPrim → JSConv
  | JSPrim.pnull => JSConv.cnull
  | JSPrim.pbool b => JSConv.cbool b
  | JSPrim.pnum q => JSConv.cnum q
  | JSPrim.pstr s => JSConv.cstring s

/-- The guest value a primitive converts to. -/
def encPrim : JSPrim → PVal
  | JSPrim.pnull => PVal.vundef
  | JSPrim.pbool true => PVal.vtrue
  | JSPrim.pbool false => PVal.vfalse
  | JSPrim.pnum q => if q.isInt then PVal.vint q.num else PVal.vdouble q
  | JSPrim.pstr s => PVal.vstring s

/-- The host value a primitive projects back to. -/
def projPrim : JSPrim → JSV
  | JSPrim.pnull => JSV.jnull
  | JSPrim.pbool b => JSV.jbool b
  | JSPrim.pnum q => JSV.jnum q
  | JSPrim.pstr s => JSV.jstr s

/-- A string that survives the C-string boundary unchanged. -/
def NulFree (s : String) : Prop := cstr s = s

/-- Round trip of a primitive: convert with `toPerlValue`, project the
resulting scalar proxy. -/
def primRoundTrip (σ : GuestHeap) (p : JSPrim) : Except String JSV :=
  match ZeroPerl.toPerlValue σ (embedPrim p) with
  | Except.error e => Except.error e
  | Except.ok (σ₁, v) => PerlValue.project σ₁ v

/-- Round trip of an array: convert with `toPerlValue`, recover the array
proxy from the reference with `PerlArray.fromValue`, project it. -/
def arrayRoundTrip (σ : GuestHeap) (xs : List JSConv) : Except String (List JSV) :=
  match ZeroPerl.toPerlValue σ (JSConv.carr xs) with
  | Except.error e => Except.error e
  | Except.ok (σ₁, v) =>
    match PerlArray.fromValue σ₁ v with
    | Except.error e => Except.error e
    | Except.ok (σ₂, some arr) =>
      match PerlArray.project σ₂ arr with
      | Except.error e => Except.error e
      | Except.ok (_, l) => Except.ok l
    | Except.ok (_, none) => Except.error ("value does not denote an array")

/-- Round trip of a string-keyed map: convert with `toPerlValue`, recover
the hash proxy from the reference with `PerlHash.fromValue`, project it. -/
def mapRoundTrip (σ : GuestHeap) (es : List (String × JSConv)) :
    Except String (List (String × JSV)) :=
  match ZeroPerl.toPerlValue σ (JSConv.cobj es) with
  | Except.error e => Except.error e
  | Except.ok (σ₁, v) =>
    match PerlHash.fromValue σ₁ v with
    | Except.error e => Except.error e
    | Except.ok (σ₂, some hs) =>
      match PerlHash.project σ₂ hs with
      | Except.error e => Except.error e
      | Except.ok (_, l) => Except.ok l
    | Except.ok (_, none) => Except.error ("value does not denote a hash")

/- ===================================================================
   Part F.  Helper lemmas
   =================================================================== -/

theorem cells_alloc_self (σ : GuestHeap) (v : PVal) :
    ((σ.alloc v).1).cells (σ.alloc v).2 = some (v, 1) := by
  simp [GuestHeap.alloc]

theorem cells_alloc_ne (σ : GuestHeap) (v : PVal) (h : Nat) (hne : h ≠ σ.next) :
    ((σ.alloc v).1).cells h = σ.cells h := by
  simp [GuestHeap.alloc, hne]

theorem next_alloc (σ : GuestHeap) (v : PVal) : ((σ.alloc v).1).next = σ.next + 1 := rfl

theorem snd_alloc (σ : GuestHeap) (v : PVal) : (σ.alloc v).2 = σ.next := rfl

theorem WF_alloc (σ : GuestHeap) (v : PVal) (hσ : σ.WF) : ((σ.alloc v).1).WF := by
  obtain ⟨h1, h0, hhi⟩ := hσ
  refine ⟨?_, ?_, ?_⟩
  · rw [next_alloc]
    omega
  · have hz : (0 : Nat) ≠ σ.next := by omega
    rw [cells_alloc_ne σ v 0 hz]
    exact h0
  · intro h hh
    rw [next_alloc] at hh
    have hne : h ≠ σ.next := by omega
    rw [cells_alloc_ne σ v h hne]
    exact hhi h (by omega)

theorem cells_setVal_ne (σ : GuestHeap) (h : Nat) (v : PVal) (h' : Nat)
    (hne : h' ≠ h) : (σ.setVal h v).cells h' = σ.cells h' := by
  simp [GuestHeap.setVal, hne]

theorem cells_setVal_self (σ : GuestHeap) (h : Nat) (v : PVal) (w : PVal) (rc : Nat)
    (hc : σ.cells h = some (w, rc)) : (σ.setVal h v).cells h = some (v, rc) := by
  simp [GuestHeap.setVal, hc]

theorem cells_incref_ne (σ : GuestHeap) (h h' : Nat) (hne : h' ≠ h) :
    (σ.incref h).cells h' = σ.cells h' := by
  simp [GuestHeap.incref, hne]

theorem cells_incref_self (σ : GuestHeap) (h : Nat) (v : PVal) (rc : Nat)
    (hc : σ.cells h = some (v, rc)) : (σ.incref h).cells h = some (v, rc + 1) := by
  simp [GuestHeap.incref, hc]

theorem cells_decref_ne (σ : GuestHeap) (h h' : Nat) (hne : h' ≠ h) :
    (σ.decref h).cells h' = σ.cells h' := by
  simp [GuestHeap.decref, hne]

theorem cells_decref_self (σ : GuestHeap) (h : Nat) (v : PVal) (rc : Nat)
    (hc : σ.cells h = some (v, rc)) (hrc : 2 ≤ rc) :
    (σ.decref h).cells h = some (v, rc - 1) := by
  have : ¬ rc ≤ 1 := by omega
  simp [GuestHeap.decref, hc, this]

theorem cells_incref_decref (σ : GuestHeap) (h : Nat) (v : PVal) (rc : Nat)
    (hc : σ.cells h = some (v, rc)) (hrc : 1 ≤ rc) :
    ∀ h', ((σ.incref h).decref h).cells h' = σ.cells h' := by
  intro h'
  by_cases he : h' = h
  · subst he
    rw [cells_decref_self _ h' v (rc + 1) (cells_incref_self σ h' v rc hc) (by omega)]
    simp [hc]
  · rw [cells_decref_ne _ _ _ he, cells_incref_ne _ _ _ he]

theorem get_of_cells (σ : GuestHeap) (h : Nat) (v : PVal) (rc : Nat)
    (hc : σ.cells h = some (v, rc)) : σ.get h = some v := by
  simp [GuestHeap.get, hc]

theorem getD_append_len (pre : List Nat) (h : Nat) (t : List Nat) :
    (pre ++ h :: t).getD pre.length 0 = h := by
  induction pre with
  | nil => rfl
  | cons a l ih => simpa using ih

theorem lookup_append_of_ne (es : List (String × Nat)) (e : String × Nat)
    (k : String) (h1 : es.lookup k = none) (h2 : k ≠ e.1) :
    (es ++ [e]).lookup k = none := by
  induction es with
  | nil =>
    have : (k == e.1) = false := by
      simp [h2]
    simp [List.lookup, this]
  | cons a l ih =>
    rw [List.cons_append, List.lookup] at *
    rcases hk : (k == a.1) with _ | _
    · rw [hk] at h1
      exact ih h1
    · rw [hk] at h1
      exact absurd h1 (by simp)

theorem lookup_none_of_not_mem_keys (es : List (String × Nat)) (k : String)
    (h : k ∉ es.map Prod.fst) : es.lookup k = none := by
  induction es with
  | nil => rfl
  | cons a l ih =>
    rw [List.map_cons, List.mem_cons] at h
    push_neg at h
    have : (k == a.1) = false := by simp [h.1]
    rw [List.lookup, this]
    exact ih h.2

theorem range_filterMap_eq_filter (l : List Nat) :
    (List.range l.length).filterMap (fun i =>
      let v := l.getD i 0
      if v = 0 then none else some v) = l.filter (fun h => h != 0) := by
  induction l with
  | nil => rfl
  | cons a t ih =>
    have hstep :
        (List.range (a :: t).length).filterMap (fun i =>
          let v := (a :: t).getD i 0
          if v = 0 then none else some v)
        = (if a = 0 then [] else [a]) ++
          (List.range t.length).filterMap (fun i =>
            let v := t.getD i 0
            if v = 0 then none else some v) := by
      rw [List.length_cons, List.range_succ_eq_map, List.filterMap_cons, List.filterMap_map]
      by_cases ha : a = 0
      · simp only [List.getD_cons_zero, if_pos ha]
        rfl
      · simp only [List.getD_cons_zero, if_neg ha]
        rfl
    rw [hstep, ih, List.filter_cons]
    by_cases ha : a = 0
    · subst ha
      simp
    · have hb : (a != 0) = true := by simp [ha]
      simp [ha, hb]

theorem readSlots_eq_filter (argv : List Nat) :
    readSlots argv argv.length = argv.filter (fun h => h != 0) :=
  range_filterMap_eq_filter argv

theorem extractResults_eq_filter (values : List Nat) :
    extractResults values = values.filter (fun h => h != 0) :=
  range_filterMap_eq_filter values

theorem filter_eq_self_of_no_zero (values : List Nat) (h0 : (0 : Nat) ∉ values) :
    values.filter (fun h => h != 0) = values := by
  apply List.filter_eq_self.2
  intro a ha
  simp only [bne_iff_ne, ne_eq]
  intro hc
  subst hc
  exact h0 ha

theorem rat_cast_num_of_isInt (q : Rat) (h : q.isInt = true) : ((q.num : Rat)) = q := by
  have hd : q.den = 1 := by
    simpa [Rat.isInt] using h
  conv_rhs => rw [← Rat.num_div_den q]
  rw [hd]
  simp

/- ===================================================================
   Part G.  Claim theorems
   =================================================================== -/

/-- C1: a wrapped export invoked (from the idle state) with a wrapped
guest import whose underlying operation returns a pending result once,
resolving to `X`, finally returns exactly the result the guest body would
have produced had the import returned `X` synchronously; on the rewind
pass the same body is re-invoked (same original arguments) and the import
wrapper answers with the stored resolved value, never re-running the
underlying operation. -/
theorem unwind_rewind_refinement {α β : Type} (X : α) (body : α → β) :
    runWrappedExport 2 (ImportImpl.pending X) body
        { state := State.none, value := SlotVal.undef }
      = Except.ok ({ state := State.none, value := SlotVal.resolved X }, some (body X))
    ∧ runWrappedExport 2 (ImportImpl.sync X) body
        { state := State.none, value := SlotVal.undef }
      = Except.ok ({ state := State.none, value := SlotVal.undef }, some (body X))
    ∧ (runWrappedExport 2 (ImportImpl.pending X) body
        { state := State.none, value := SlotVal.undef }).map (fun r => r.2)
      = (runWrappedExport 2 (ImportImpl.sync X) body
        { state := State.none, value := SlotVal.undef }).map (fun r => r.2) :=
  ⟨rfl, rfl, rfl⟩

/-- C2: invoking a wrapped export while the module's asyncify state is not
`None` fails immediately with the state-invariant error (the body is never
entered), and a wrapped import reaching its non-rewinding path in the
`Unwinding` state fails the same way; the calls are never silently
interleaved or serialized. -/
theorem single_inflight_invariant {α β : Type} (σ : Asyncify α) (imp : ImportImpl α)
    (body : α → β) (fuel : Nat) (h : σ.state ≠ State.none) :
    runWrappedExport fuel imp body σ = Except.error (invalidStateMsg σ.state)
    ∧ (σ.state = State.unwinding →
        wrapImportFn imp σ = Except.error (invalidStateMsg σ.state)) := by
  constructor
  · unfold runWrappedExport assertNoneState
    simp [h]
  · intro hu
    unfold wrapImportFn assertNoneState
    rw [hu]
    simp

/-- C2 witness: a suspended module (state `Unwinding`) rejects a wrapped
export invocation and a wrapped import invocation with the state-invariant
error. -/
theorem single_inflight_witness :
    runWrappedExport 1 (ImportImpl.sync (0 : Nat)) (fun x : Nat => x)
        { state := State.unwinding, value := SlotVal.undef }
      = Except.error (invalidStateMsg State.unwinding)
    ∧ wrapImportFn (ImportImpl.sync (0 : Nat))
        { state := State.unwinding, value := SlotVal.undef }
      = Except.error (invalidStateMsg State.unwinding) := by
  have h := single_inflight_invariant
    (⟨State.unwinding, SlotVal.undef⟩ : Asyncify Nat)
    (ImportImpl.sync (0 : Nat)) (fun x : Nat => x) 1 (by decide)
  exact ⟨h.1, h.2 rfl⟩

/-- C3 counterexample: `malloc` is in the default exclusion list, yet
the import-wrapping pass still wraps an import named `malloc` — the
exclusion list is not consulted for imports, refuting the claim that an
excluded import is passed through unwrapped. -/
theorem import_exclusion_counterexample :
    (("malloc") ∈ unwrappedExportNames []) ∧
    wrapModuleImports [(("malloc"), ImportVal.fn 7)]
      = [(("malloc"), WrappedImport.wrappedFn 7)] :=
  ⟨by decide, rfl⟩

/-- C3 amended: the import-wrapping pass wraps exactly the
function-valued imports, regardless of their names (the exclusion list is
never consulted for imports); it governs only the export-wrapping pass,
where a function export is wrapped iff its name does not start with
`asyncify_` and is not in the exclusion list. -/
theorem wrap_policy_amended (m : List (String × ImportVal)) (excl : List String)
    (c : WrapCache) (exps : List (String × ExportVal)) :
    List.Forall₂ (fun e w => w.1 = e.1 ∧
        ((∃ i, w.2 = WrappedImport.wrappedFn i) ↔ (∃ i, e.2 = ImportVal.fn i)))
      m (wrapModuleImports m)
    ∧ List.Forall₂ (fun e w => w.1 = e.1 ∧
        ((∃ i, w.2 = WrappedExport.wrapped i) ↔
          ((∃ i, e.2 = ExportVal.fn i) ∧ e.1.startsWith ("asyncify_") = false
            ∧ e.1 ∉ excl)))
      exps (wrapExports excl c exps).2 := by
  constructor
  · induction m with
    | nil => exact List.Forall₂.nil
    | cons e rest ih =>
      obtain ⟨n, v⟩ := e
      cases v with
      | fn i =>
        refine List.Forall₂.cons ⟨rfl, ?_⟩ ih
        exact ⟨fun _ => ⟨i, rfl⟩, fun _ => ⟨i, rfl⟩⟩
      | other i =>
        refine List.Forall₂.cons ⟨rfl, ?_⟩ ih
        constructor
        · rintro ⟨j, hj⟩
          cases hj
        · rintro ⟨j, hj⟩
          cases hj
  · induction exps generalizing c with
    | nil => exact List.Forall₂.nil
    | cons e rest ih =>
      obtain ⟨n, v⟩ := e
      cases v with
      | fn i =>
        by_cases hcond : n.startsWith ("asyncify_") = false ∧ n ∉ excl
        · simp only [wrapExports, if_pos hcond]
          refine List.Forall₂.cons ⟨rfl, ?_⟩ (ih _)
          exact ⟨fun _ => ⟨⟨i, rfl⟩, hcond.1, hcond.2⟩,
                 fun _ => ⟨(wrapExportFn c i).2, rfl⟩⟩
        · simp only [wrapExports, if_neg hcond]
          refine List.Forall₂.cons ⟨rfl, ?_⟩ (ih _)
          constructor
          · rintro ⟨j, hj⟩
            cases hj
          · rintro ⟨⟨j, hj⟩, h1, h2⟩
            exact absurd ⟨h1, h2⟩ hcond
      | other i =>
        simp only [wrapExports]
        refine List.Forall₂.cons ⟨rfl, ?_⟩ (ih _)
        constructor
        · rintro ⟨j, hj⟩
          cases hj
        · rintro ⟨⟨j, hj⟩, h1, h2⟩
          cases hj

/-- C5: export wrapping is idempotent and identity-cached — wrapping the
same function again in the cache state left by the first wrapping returns
the very same wrapper and leaves the cache unchanged, so the exported
table never yields two distinct wrappers for one underlying function. -/
theorem wrap_export_idempotent (c : WrapCache) (f : Nat) :
    wrapExportFn (wrapExportFn c f).1 f = wrapExportFn c f := by
  cases hl : c.entries.lookup f with
  | some w => simp [wrapExportFn, hl]
  | none => simp [wrapExportFn, hl, List.lookup]

/-- C6 counterexample: a registered host function that throws with an
empty message gets the null handle returned, but nothing is installed via
the guest's set-host-error export (`writeCString` returns the null pointer
for the empty string and the install is skipped), refuting the claim that
every throwing host function has its message installed. -/
theorem host_error_counterexample :
    handleHostCall emptyHeap none [(1, fun _ => HostOutcome.raise (""))] 1 0 []
      = (emptyHeap, none, 0) := rfl

/-- C6 amended: a registered host function that throws with a non-empty
message has the message (truncated at the first NUL by the C-string
boundary) installed via the guest's set-host-error export and the null
handle returned to the guest; the dispatch completes normally — the
exception never crosses the boundary — and the guest observes the null
handle as the failure signal, not a silently-returned undef. -/
theorem host_error_surfacing (σ : GuestHeap) (errSlot : Option String)
    (fns : List (Nat × HostFn)) (funcId argc : Nat) (argv : List Nat)
    (f : HostFn) (msg : String)
    (hf : fns.lookup funcId = some f)
    (hraise : ∀ args, f args = HostOutcome.raise msg)
    (hmsg : msg ≠ ("")) :
    handleHostCall σ errSlot fns funcId argc argv = (σ, some (cstr msg), 0) := by
  unfold handleHostCall
  rw [hf]
  simp only [hraise, setHostError]
  simp [hmsg]

/-- C6 witness: a host function throwing `boom` installs `boom` and
returns the null handle. -/
theorem host_error_witness :
    handleHostCall emptyHeap none [(1, fun _ => HostOutcome.raise (("boom")))] 1 0 []
      = (emptyHeap, some (cstr ("boom")), 0) :=
  host_error_surfacing emptyHeap none [(1, fun _ => HostOutcome.raise (("boom")))]
    1 0 [] (fun _ => HostOutcome.raise (("boom"))) ("boom")
    rfl (fun _ => rfl) (by decide)

/-- C7: for a guest call whose count-prefixed result record holds the
handles `r.values` (all non-null), list context returns them all in order,
scalar context returns exactly the first (or nothing when there are none),
void context returns nothing after disposing every returned handle; in all
three contexts the record's values array and the record itself are freed
by the host after extraction. -/
theorem call_context_semantics (namePtr argvPtr : Nat) (r : ResultRecord)
    (h0 : (0 : Nat) ∉ r.values) (hv : r.valuesArrayPtr ≠ 0) (ha : argvPtr ≠ 0) :
    ZeroPerl.call namePtr argvPtr (CallBehavior.record r) PerlContext.list
      = Except.ok (CallOutcomeV.olist (r.values.map (fun h => PerlValue.mk h false)),
          { freed := [r.valuesArrayPtr, r.ptr, namePtr, argvPtr], valueFreed := [] })
    ∧ ZeroPerl.call namePtr argvPtr (CallBehavior.record r) PerlContext.scalar
      = Except.ok (CallOutcomeV.oscalar (r.values.head?.map (fun h => PerlValue.mk h false)),
          { freed := [r.valuesArrayPtr, r.ptr, namePtr, argvPtr], valueFreed := [] })
    ∧ ZeroPerl.call namePtr argvPtr (CallBehavior.record r) PerlContext.void
      = Except.ok (CallOutcomeV.onone,
          { freed := [r.valuesArrayPtr, r.ptr, namePtr, argvPtr],
            valueFreed := r.values }) := by
  have hres : extractResults r.values = r.values := by
    rw [extractResults_eq_filter]
    exact filter_eq_self_of_no_zero r.values h0
  have hmap : (r.values.map (fun h => PerlValue.mk h false)).map PerlValue.ptr
      = r.values := by
    have he : (PerlValue.ptr ∘ fun h => PerlValue.mk h false) = fun h => h := rfl
    rw [List.map_map, he, List.map_id']
  refine ⟨?_, ?_, ?_⟩ <;>
    simp [ZeroPerl.call, hres, hmap, hv, ha, List.head?_map]

/-- C7 witness: a record holding handles 3, 4, 5. -/
theorem call_context_witness :
    ZeroPerl.call 1 2 (CallBehavior.record ⟨10, 20, [3, 4, 5]⟩) PerlContext.list
      = Except.ok (CallOutcomeV.olist
          [PerlValue.mk 3 false, PerlValue.mk 4 false, PerlValue.mk 5 false],
          { freed := [20, 10, 1, 2], valueFreed := [] }) :=
  (call_context_semantics 1 2 ⟨10, 20, [3, 4, 5]⟩ (by decide) (by decide) (by decide)).1

/-- C9: an eval or runFile invocation during which the guest raises its
process-exit signal completes non-exceptionally with a structured outcome
carrying the provided exit code: success when the code is zero, otherwise
a failure outcome with the guest's error message and that code. -/
theorem procexit_outcome (c : Int) (e : String) :
    ZeroPerl.eval false (GuestRun.procExit c) e
      = Except.ok (if c ≠ 0 then { success := false, error := some e, exitCode := c }
          else { success := true, error := none, exitCode := 0 })
    ∧ ZeroPerl.runFile false (GuestRun.procExit c) e
      = Except.ok (if c ≠ 0 then { success := false, error := some e, exitCode := c }
          else { success := true, error := none, exitCode := 0 }) := by
  by_cases hc : c = 0
  · subst hc
    exact ⟨rfl, rfl⟩
  · simp [ZeroPerl.eval, ZeroPerl.runFile, hc]

/-- C10: guest-to-host dispatch invokes the registered function with
exactly the non-zero handles among the `argc` argv slots, in slot order —
null slots are silently skipped, so the function may receive fewer
arguments than `argc` while the dispatch still completes without touching
the host-error slot. -/
theorem dispatch_arg_filtering (argv : List Nat) :
    readSlots argv argv.length = argv.filter (fun h => h != 0)
    ∧ (readSlots argv argv.length).length ≤ argv.length
    ∧ (∀ (σ : GuestHeap) (errSlot : Option String) (funcId : Nat)
        (msgOf : List Nat → String),
        handleHostCall σ errSlot
          [(funcId, fun args => HostOutcome.raise (msgOf (args.map PerlValue.ptr)))]
          funcId argv.length argv
        = (σ, setHostError errSlot (msgOf (argv.filter (fun h => h != 0))), 0))
    ∧ (∀ (σ : GuestHeap) (errSlot : Option String) (funcId : Nat) (n : Nat),
        handleHostCall σ errSlot
          [(funcId, fun _ => HostOutcome.ret (PerlValue.mk n false))]
          funcId argv.length argv
        = (σ, errSlot, n)) := by
  have h1 := readSlots_eq_filter argv
  refine ⟨h1, ?_, ?_, ?_⟩
  · rw [h1]
    exact List.length_filter_le _ _
  · intro σ errSlot funcId msgOf
    have hcomp : (argv.filter (fun h => h != 0)).map
        (PerlValue.ptr ∘ fun h => PerlValue.mk h false)
        = argv.filter (fun h => h != 0) := by
      have he : (PerlValue.ptr ∘ fun h => PerlValue.mk h false) = fun h => h := rfl
      rw [he, List.map_id']
    simp [handleHostCall, List.lookup, h1, List.map_map, hcomp]
  · intro σ errSlot funcId n
    simp [handleHostCall, List.lookup]

/-- C8: every operation on a disposed scalar/array/hash proxy raises the
disposed-handle error; `dispose` on an already-disposed proxy is a no-op
performing no guest call; and across repeated disposals the type's free
export is invoked exactly once per proxy — on the first disposal only. -/
theorem dispose_finality (σ : GuestHeap) (p : PerlValue) (arr : PerlArray)
    (hsh : PerlHash) (v : JSConv) (k : String) (i : Nat)
    (hp : p.disposed = true) (ha : arr.disposed = true) (hh : hsh.disposed = true) :
    p.getPtr = Except.error (("PerlValue has been disposed"))
    ∧ PerlValue.toInt σ p = Except.error (("PerlValue has been disposed"))
    ∧ PerlValue.toDouble σ p = Except.error (("PerlValue has been disposed"))
    ∧ PerlValue.toString σ p = Except.error (("PerlValue has been disposed"))
    ∧ PerlValue.toBoolean σ p = Except.error (("PerlValue has been disposed"))
    ∧ PerlValue.isUndef σ p = Except.error (("PerlValue has been disposed"))
    ∧ PerlValue.isRef σ p = Except.error (("PerlValue has been disposed"))
    ∧ PerlValue.getType σ p = Except.error (("PerlValue has been disposed"))
    ∧ PerlValue.project σ p = Except.error (("PerlValue has been disposed"))
    ∧ PerlValue.createRef σ p = Except.error (("PerlValue has been disposed"))
    ∧ PerlValue.deref σ p = Except.error (("PerlValue has been disposed"))
    ∧ PerlValue.incref σ p = Except.error (("PerlValue has been disposed"))
    ∧ PerlValue.decref σ p = Except.error (("PerlValue has been disposed"))
    ∧ PerlValue.dispose σ p = (σ, p, false)
    ∧ arr.getPtr = Except.error (("PerlArray has been disposed"))
    ∧ PerlArray.push σ arr v = Except.error (("PerlArray has been disposed"))
    ∧ PerlArray.pop σ arr = Except.error (("PerlArray has been disposed"))
    ∧ PerlArray.get σ arr i = Except.error (("PerlArray has been disposed"))
    ∧ PerlArray.set σ arr i v = Except.error (("PerlArray has been disposed"))
    ∧ PerlArray.getLength σ arr = Except.error (("PerlArray has been disposed"))
    ∧ PerlArray.clear σ arr = Except.error (("PerlArray has been disposed"))
    ∧ PerlArray.toValue σ arr = Except.error (("PerlArray has been disposed"))
    ∧ PerlArray.project σ arr = Except.error (("PerlArray has been disposed"))
    ∧ PerlArray.dispose σ arr = (σ, arr, false)
    ∧ hsh.getPtr = Except.error (("PerlHash has been disposed"))
    ∧ PerlHash.set σ hsh k v = Except.error (("PerlHash has been disposed"))
    ∧ PerlHash.get σ hsh k = Except.error (("PerlHash has been disposed"))
    ∧ PerlHash.has σ hsh k = Except.error (("PerlHash has been disposed"))
    ∧ PerlHash.delete σ hsh k = Except.error (("PerlHash has been disposed"))
    ∧ PerlHash.clear σ hsh = Except.error (("PerlHash has been disposed"))
    ∧ PerlHash.toValue σ hsh = Except.error (("PerlHash has been disposed"))
    ∧ PerlHash.project σ hsh = Except.error (("PerlHash has been disposed"))
    ∧ PerlHash.entries σ hsh = Except.error (("PerlHash has been disposed"))
    ∧ PerlHash.dispose σ hsh = (σ, hsh, false)
    ∧ (∀ n, PerlValue.dispose σ (PerlValue.mk n false)
        = (zeroperl_value_free σ n, PerlValue.mk n true, true))
    ∧ (∀ n, PerlValue.dispose σ (PerlValue.mk n true)
        = (σ, PerlValue.mk n true, false))
    ∧ (∀ n, PerlArray.dispose σ (PerlArray.mk n false)
        = (zeroperl_array_free σ n, PerlArray.mk n true, true))
    ∧ (∀ n, PerlArray.dispose σ (PerlArray.mk n true)
        = (σ, PerlArray.mk n true, false))
    ∧ (∀ n, PerlHash.dispose σ (PerlHash.mk n false)
        = (zeroperl_hash_free σ n, PerlHash.mk n true, true))
    ∧ (∀ n, PerlHash.dispose σ (PerlHash.mk n true)
        = (σ, PerlHash.mk n true, false)) := by
  obtain ⟨pp, pd⟩ := p
  obtain ⟨ap, ad⟩ := arr
  obtain ⟨qp, qd⟩ := hsh
  subst hp
  subst ha
  subst hh
  exact ⟨rfl, rfl, rfl, rfl, rfl, rfl, rfl, rfl, rfl, rfl, rfl, rfl, rfl, rfl,
    rfl, rfl, rfl, rfl, rfl, rfl, rfl, rfl, rfl, rfl,
    rfl, rfl, rfl, rfl, rfl, rfl, rfl, rfl, rfl, rfl,
    fun _ => rfl, fun _ => rfl, fun _ => rfl, fun _ => rfl, fun _ => rfl,
    fun _ => rfl⟩

/-- C8 witness: operating on a disposed proxy raises the disposed error. -/
theorem dispose_finality_witness :
    (PerlValue.mk 3 true).getPtr = Except.error (("PerlValue has been disposed")) :=
  (dispose_finality emptyHeap (PerlValue.mk 3 true) (PerlArray.mk 4 true)
    (PerlHash.mk 5 true) JSConv.cnull ("k") 0 rfl rfl rfl).1

/-- C4 counterexample: the round-trip fails as universally stated.  A map
key containing a NUL character is truncated by the C-string boundary
(`writeCString`), so the projected map is keyed `a` instead of `a\x00b`;
and a nested array element projects to the string form of a reference, not
a sequence, so equality with the original nested value cannot hold. -/
theorem roundtrip_counterexample :
    mapRoundTrip emptyHeap [(("a\x00b"), embedPrim (JSPrim.pnum 1))]
      = Except.ok [(("a"), JSV.jnum 1)]
    ∧ (("a\x00b") : String) ≠ ("a")
    ∧ arrayRoundTrip emptyHeap [JSConv.carr []]
      = Except.ok [JSV.jstr (("REF(2)"))] :=
  ⟨by decide, by decide, by decide⟩

theorem toPerlValue_prim (σ : GuestHeap) (p : JSPrim) (h1 : 1 ≤ σ.next) :
    ZeroPerl.toPerlValue σ (embedPrim p)
      = Except.ok ((σ.alloc (encPrim p)).1, PerlValue.mk σ.next false) := by
  have hz : σ.next ≠ 0 := by omega
  cases p with
  | pnull =>
    simp [embedPrim, encPrim, ZeroPerl.toPerlValue, ZeroPerl.createUndef,
      zeroperl_new_undef, snd_alloc, hz]
  | pbool b =>
    cases b <;>
      simp [embedPrim, encPrim, ZeroPerl.toPerlValue, ZeroPerl.createBool,
        zeroperl_new_bool, snd_alloc, hz]
  | pnum q =>
    by_cases hq : q.isInt <;>
      simp [embedPrim, encPrim, ZeroPerl.toPerlValue, ZeroPerl.createInt,
        ZeroPerl.createDouble, zeroperl_new_int, zeroperl_new_double, snd_alloc,
        hz, hq]
  | pstr s =>
    simp [embedPrim, encPrim, ZeroPerl.toPerlValue, ZeroPerl.createString,
      zeroperl_new_string, snd_alloc, hz]

theorem project_encPrim (σ : GuestHeap) (h : Nat) (x : JSPrim) (rc : Nat)
    (hc : σ.cells h = some (encPrim x, rc)) :
    PerlValue.project σ (PerlValue.mk h false) = Except.ok (projPrim x) := by
  have hget : σ.get h = some (encPrim x) := get_of_cells σ h _ rc hc
  cases x with
  | pnull =>
    simp only [encPrim] at hget
    simp [PerlValue.project, PerlValue.checkDisposed, PerlValue.isUndef,
      zeroperl_is_undef, hget, projPrim]
  | pbool b =>
    cases b <;>
    · simp only [encPrim] at hget
      simp [PerlValue.project, PerlValue.checkDisposed, PerlValue.isUndef,
        PerlValue.getType, zeroperl_is_undef, zeroperl_get_type, mapPerlType,
        typeCode, hget, projPrim]
  | pnum q =>
    by_cases hq : q.isInt
    · simp only [encPrim, if_pos hq] at hget
      have : PerlValue.project σ (PerlValue.mk h false)
          = Except.ok (JSV.jnum ((q.num : Rat))) := by
        simp [PerlValue.project, PerlValue.checkDisposed, PerlValue.isUndef,
          PerlValue.getType, PerlValue.toDouble, zeroperl_is_undef,
          zeroperl_get_type, zeroperl_to_double, mapPerlType, typeCode, hget]
      rw [this, rat_cast_num_of_isInt q hq]
      rfl
    · simp only [encPrim, if_neg hq] at hget
      simp [PerlValue.project, PerlValue.checkDisposed, PerlValue.isUndef,
        PerlValue.getType, PerlValue.toDouble, zeroperl_is_undef,
        zeroperl_get_type, zeroperl_to_double, mapPerlType, typeCode, hget,
        projPrim]
  | pstr s =>
    simp only [encPrim] at hget
    simp [PerlValue.project, PerlValue.checkDisposed, PerlValue.isUndef,
      PerlValue.getType, PerlValue.toString, zeroperl_is_undef,
      zeroperl_get_type, zeroperl_to_string, mapPerlType, typeCode,
      stringifyPVal, hget, projPrim]

theorem pushAllConv_spec (xs : List JSPrim) :
    ∀ (σ : GuestHeap) (a : Nat) (hs : List Nat) (rcA : Nat),
    σ.WF → 0 < a → a < σ.next → σ.cells a = some (PVal.varray hs, rcA) →
    ∃ (σ' : GuestHeap) (hs' : List Nat),
      pushAllConv σ a (xs.map embedPrim) = Except.ok σ'
      ∧ σ'.WF ∧ σ.next ≤ σ'.next ∧ a < σ'.next
      ∧ σ'.cells a = some (PVal.varray (hs ++ hs'), rcA)
      ∧ (∀ h, h ≠ a → h < σ.next → σ'.cells h = σ.cells h)
      ∧ List.Forall₂ (fun h x => h ≠ 0 ∧ h ≠ a ∧ h < σ'.next
          ∧ ∃ rc, 1 ≤ rc ∧ σ'.cells h = some (encPrim x, rc)) hs' xs := by
  induction xs with
  | nil =>
    intro σ a hs rcA hWF ha0 haN hcell
    exact ⟨σ, [], rfl, hWF, Nat.le_refl _, haN, by simpa using hcell,
      fun h _ _ => rfl, List.Forall₂.nil⟩
  | cons x xs ih =>
    intro σ a hs rcA hWF ha0 haN hcell
    have h1 : 1 ≤ σ.next := hWF.1
    have hanext : a ≠ σ.next := by omega
    have hconv := toPerlValue_prim σ x h1
    have hσ₁a : ((σ.alloc (encPrim x)).1).cells a = some (PVal.varray hs, rcA) := by
      rw [cells_alloc_ne σ _ a hanext]
      exact hcell
    have hf1 : ((σ.alloc (encPrim x)).1).cells σ.next = some (encPrim x, 1) := by
      have hself := cells_alloc_self σ (encPrim x)
      rwa [snd_alloc] at hself
    have harr : zeroperl_array_push ((σ.alloc (encPrim x)).1) a σ.next
        = (((σ.alloc (encPrim x)).1).setVal a
            (PVal.varray (hs ++ [σ.next]))).incref σ.next := by
      unfold zeroperl_array_push
      rw [get_of_cells _ _ _ _ hσ₁a]
    have hdisp : ∀ σt : GuestHeap,
        disposeTemp σt (embedPrim x) (PerlValue.mk σ.next false)
          = σt.decref σ.next := by
      intro σt
      cases x <;> rfl
    set σ₃ : GuestHeap :=
      (((((σ.alloc (encPrim x)).1).setVal a
        (PVal.varray (hs ++ [σ.next]))).incref σ.next).decref σ.next) with hσ₃def
    have hσ₂a : ((((σ.alloc (encPrim x)).1).setVal a
        (PVal.varray (hs ++ [σ.next]))).incref σ.next).cells a
        = some (PVal.varray (hs ++ [σ.next]), rcA) := by
      rw [cells_incref_ne _ _ _ hanext]
      exact cells_setVal_self _ _ _ _ _ hσ₁a
    have hσ₂f : ((((σ.alloc (encPrim x)).1).setVal a
        (PVal.varray (hs ++ [σ.next]))).incref σ.next).cells σ.next
        = some (encPrim x, 2) := by
      have hsv : ((((σ.alloc (encPrim x)).1).setVal a
          (PVal.varray (hs ++ [σ.next])))).cells σ.next = some (encPrim x, 1) := by
        rw [cells_setVal_ne _ _ _ _ (Ne.symm hanext)]
        exact hf1
      exact cells_incref_self _ _ _ _ hsv
    have hσ₃a : σ₃.cells a = some (PVal.varray (hs ++ [σ.next]), rcA) := by
      rw [hσ₃def, cells_decref_ne _ _ _ hanext]
      exact hσ₂a
    have hσ₃f : σ₃.cells σ.next = some (encPrim x, 1) := by
      rw [hσ₃def]
      exact cells_decref_self _ _ _ 2 hσ₂f (Nat.le_refl 2)
    have hσ₃other : ∀ h, h ≠ a → h ≠ σ.next → σ₃.cells h = σ.cells h := by
      intro h hna hnn
      rw [hσ₃def, cells_decref_ne _ _ _ hnn, cells_incref_ne _ _ _ hnn,
        cells_setVal_ne _ _ _ _ hna, cells_alloc_ne _ _ _ hnn]
    have hσ₃next : σ₃.next = σ.next + 1 := rfl
    have hσ₃WF : σ₃.WF := by
      refine ⟨?_, ?_, ?_⟩
      · rw [hσ₃next]
        omega
      · have hz : (0 : Nat) ≠ a := by omega
        have hz2 : (0 : Nat) ≠ σ.next := by omega
        rw [hσ₃other 0 hz hz2]
        exact hWF.2.1
      · intro h hh
        rw [hσ₃next] at hh
        have hna : h ≠ a := by omega
        have hnn : h ≠ σ.next := by omega
        rw [hσ₃other h hna hnn]
        exact hWF.2.2 h (by omega)
    obtain ⟨σ', hs'', hrun, hWF', hle', haN', hcell', hpres', hfa'⟩ :=
      ih σ₃ a (hs ++ [σ.next]) rcA hσ₃WF ha0 (by rw [hσ₃next]; omega) hσ₃a
    have hle3 : σ.next + 1 ≤ σ'.next := by
      rw [hσ₃next] at hle'
      exact hle'
    refine ⟨σ', σ.next :: hs'', ?_, hWF', by omega, haN', ?_, ?_, ?_⟩
    · simp only [List.map_cons, pushAllConv, hconv, harr, hdisp]
      exact hrun
    · rw [hcell']
      simp [List.append_assoc]
    · intro h hna hlt
      have hnn : h ≠ σ.next := by omega
      rw [hpres' h hna (by rw [hσ₃next]; omega), hσ₃other h hna hnn]
    · refine List.Forall₂.cons ⟨by omega, Ne.symm hanext, by omega, 1, Nat.le_refl 1, ?_⟩ hfa'
      rw [hpres' σ.next (Ne.symm hanext) (by rw [hσ₃next]; omega)]
      exact hσ₃f

theorem projectFrom_spec (xs : List JSPrim) :
    ∀ (pre t : List Nat) (σ : GuestHeap) (a rcA : Nat),
    σ.cells a = some (PVal.varray (pre ++ t), rcA) →
    List.Forall₂ (fun h x => h ≠ 0 ∧ h ≠ a
        ∧ ∃ rc, 1 ≤ rc ∧ σ.cells h = some (encPrim x, rc)) t xs →
    ∃ σfin, projectFrom a pre.length t.length σ
      = Except.ok (σfin, xs.map projPrim) := by
  induction xs with
  | nil =>
    intro pre t σ a rcA hcell hfa
    cases hfa
    exact ⟨σ, rfl⟩
  | cons x xs ih =>
    intro pre t σ a rcA hcell hfa
    cases hfa with
    | cons hx hrest =>
      rename_i h t'
      obtain ⟨hz, hna, rc, hrc, hcellh⟩ := hx
      have hgetA : σ.get a = some (PVal.varray (pre ++ h :: t')) :=
        get_of_cells _ _ _ _ hcell
      have hlt : pre.length < (pre ++ h :: t').length := by
        rw [List.length_append]
        simp
      have hgd : (pre ++ h :: t')[pre.length] = h := by
        rw [← List.getD_eq_getElem (pre ++ h :: t') 0 hlt]
        exact getD_append_len pre h t'
      have hag : zeroperl_array_get σ a pre.length = (σ.incref h, h) := by
        unfold zeroperl_array_get
        rw [hgetA]
        simp [hlt, hgd]
      have hIc : (σ.incref h).cells h = some (encPrim x, rc + 1) :=
        cells_incref_self _ _ _ _ hcellh
      have hproj : PerlValue.project (σ.incref h) (PerlValue.mk h false)
          = Except.ok (projPrim x) := project_encPrim _ _ _ _ hIc
      have hnet : ∀ h', ((σ.incref h).decref h).cells h' = σ.cells h' :=
        cells_incref_decref σ h _ rc hcellh hrc
      have hcell' : ((σ.incref h).decref h).cells a
          = some (PVal.varray ((pre ++ [h]) ++ t'), rcA) := by
        rw [hnet a, hcell]
        simp [List.append_assoc]
      have hfa' : List.Forall₂ (fun h' x' => h' ≠ 0 ∧ h' ≠ a
          ∧ ∃ rc', 1 ≤ rc' ∧ ((σ.incref h).decref h).cells h'
              = some (encPrim x', rc')) t' xs := by
        refine List.Forall₂.imp ?_ hrest
        rintro h' x' ⟨hz', hna', rc', hrc', hc'⟩
        exact ⟨hz', hna', rc', hrc', by rw [hnet h']; exact hc'⟩
      obtain ⟨σfin, hrec⟩ := ih (pre ++ [h]) t' _ a rcA hcell' hfa'
      have hlen : (pre ++ [h]).length = pre.length + 1 := by simp
      rw [hlen] at hrec
      refine ⟨σfin, ?_⟩
      simp only [List.length_cons, projectFrom, hag]
      rw [if_neg hz]
      simp only [hproj, PerlValue.dispose, zeroperl_value_free]
      simp only [Bool.false_eq_true, if_false]
      rw [hrec]
      rfl

theorem array_roundtrip_aux (σ : GuestHeap) (hWF : σ.WF) (xs : List JSPrim) :
    arrayRoundTrip σ (xs.map embedPrim) = Except.ok (xs.map projPrim) := by
  have h1 : 1 ≤ σ.next := hWF.1
  have hz : σ.next ≠ 0 := by omega
  have hA_WF : ((σ.alloc (PVal.varray [])).1).WF := WF_alloc σ _ hWF
  have hAcell : ((σ.alloc (PVal.varray [])).1).cells σ.next
      = some (PVal.varray [], 1) := by
    have hself := cells_alloc_self σ (PVal.varray [])
    rwa [snd_alloc] at hself
  have hAnext : ((σ.alloc (PVal.varray [])).1).next = σ.next + 1 := rfl
  obtain ⟨σ', hs', hrun, hWF', hle', haN', hcellA, hpres', hfa'⟩ :=
    pushAllConv_spec xs ((σ.alloc (PVal.varray [])).1) σ.next [] 1 hA_WF (by omega)
      (by rw [hAnext]; omega) hAcell
  have h1' : 1 ≤ σ'.next := hWF'.1
  have hz' : σ'.next ≠ 0 := by omega
  have hcellA' : σ'.cells σ.next = some (PVal.varray hs', 1) := by simpa using hcellA
  have hle2 : σ.next + 1 ≤ σ'.next := by
    rw [hAnext] at hle'
    exact hle'
  have hIN : (σ'.incref σ.next).next = σ'.next := rfl
  have hvalget : σ'.get σ.next = some (PVal.varray hs') := get_of_cells _ _ _ _ hcellA'
  have hatv : zeroperl_array_to_value σ' σ.next
      = ((σ'.incref σ.next).alloc (PVal.vref σ.next)) := by
    unfold zeroperl_array_to_value
    rw [hvalget]
  have hrv : ((σ'.incref σ.next).alloc (PVal.vref σ.next)).2 = σ'.next := rfl
  have htv : PerlArray.toValue σ' (PerlArray.mk σ.next false)
      = Except.ok (((σ'.incref σ.next).alloc (PVal.vref σ.next)).1,
          PerlValue.mk σ'.next false) := by
    unfold PerlArray.toValue PerlArray.checkDisposed
    simp [hatv, hrv, hz']
  set σB : GuestHeap := ((σ'.incref σ.next).alloc (PVal.vref σ.next)).1 with hBdef
  set σC : GuestHeap := σB.decref σ.next with hCdef
  have hdispose : (PerlArray.dispose σB (PerlArray.mk σ.next false)).1 = σC := rfl
  have hconv : ZeroPerl.toPerlValue σ (JSConv.carr (xs.map embedPrim))
      = Except.ok (σC, PerlValue.mk σ'.next false) := by
    simp only [ZeroPerl.toPerlValue, zeroperl_new_array, snd_alloc]
    rw [if_neg hz]
    simp only [hrun, htv, hdispose]
  have hCrv : σC.cells σ'.next = some (PVal.vref σ.next, 1) := by
    rw [hCdef, cells_decref_ne _ _ _ (by omega : σ'.next ≠ σ.next), hBdef]
    have hself := cells_alloc_self (σ'.incref σ.next) (PVal.vref σ.next)
    rw [snd_alloc, hIN] at hself
    exact hself
  have hCa : σC.cells σ.next = some (PVal.varray hs', 1) := by
    rw [hCdef]
    refine cells_decref_self σB σ.next _ 2 ?_ (Nat.le_refl 2)
    rw [hBdef]
    have hne : σ.next ≠ (σ'.incref σ.next).next := by
      rw [hIN]
      omega
    rw [cells_alloc_ne _ _ _ hne]
    exact cells_incref_self σ' σ.next _ 1 hcellA'
  have hCother : ∀ h, h ≠ σ.next → h < σ'.next → σC.cells h = σ'.cells h := by
    intro h hna hlt
    rw [hCdef, cells_decref_ne _ _ _ hna, hBdef]
    have hne2 : h ≠ (σ'.incref σ.next).next := by
      rw [hIN]
      omega
    rw [cells_alloc_ne _ _ _ hne2, cells_incref_ne _ _ _ hna]
  have hv2a : zeroperl_value_to_array σC σ'.next = (σC.incref σ.next, σ.next) := by
    simp [zeroperl_value_to_array, get_of_cells _ _ _ _ hCrv,
      get_of_cells _ _ _ _ hCa]
  have hfromv : PerlArray.fromValue σC (PerlValue.mk σ'.next false)
      = Except.ok (σC.incref σ.next, some (PerlArray.mk σ.next false)) := by
    unfold PerlArray.fromValue PerlValue.getPtr PerlValue.checkDisposed
    simp [hv2a, hz]
  have hDa : (σC.incref σ.next).cells σ.next = some (PVal.varray hs', 2) :=
    cells_incref_self _ _ _ _ hCa
  have hlenD : zeroperl_array_length (σC.incref σ.next) σ.next = hs'.length := by
    unfold zeroperl_array_length
    rw [get_of_cells _ _ _ _ hDa]
  have hfaD : List.Forall₂ (fun h x => h ≠ 0 ∧ h ≠ σ.next
      ∧ ∃ rc, 1 ≤ rc ∧ (σC.incref σ.next).cells h = some (encPrim x, rc)) hs' xs := by
    refine List.Forall₂.imp ?_ hfa'
    rintro h x ⟨hz0, hna, hlt, rc, hrc, hc⟩
    refine ⟨hz0, hna, rc, hrc, ?_⟩
    rw [cells_incref_ne _ _ _ hna, hCother h hna hlt]
    exact hc
  obtain ⟨σfin, hpf⟩ :=
    projectFrom_spec xs [] hs' (σC.incref σ.next) σ.next 2 (by simpa using hDa) hfaD
  have hproj : PerlArray.project (σC.incref σ.next) (PerlArray.mk σ.next false)
      = Except.ok (σfin, xs.map projPrim) := by
    unfold PerlArray.project PerlArray.checkDisposed
    simp only [Bool.false_eq_true, if_false, hlenD]
    exact hpf
  simp only [arrayRoundTrip, hconv, hfromv, hproj]

theorem setAllConv_spec (es : List (String × JSPrim)) :
    ∀ (σ : GuestHeap) (a : Nat) (stored : List (String × Nat)) (rcA : Nat),
    σ.WF → 0 < a → a < σ.next → σ.cells a = some (PVal.vhash stored, rcA) →
    (∀ k ∈ es.map Prod.fst, NulFree k) →
    (es.map Prod.fst).Nodup →
    (∀ k ∈ es.map Prod.fst, stored.lookup k = none) →
    ∃ (σ' : GuestHeap) (new : List (String × Nat)),
      setAllConv σ a (es.map (fun e => (e.1, embedPrim e.2))) = Except.ok σ'
      ∧ σ'.WF ∧ σ.next ≤ σ'.next ∧ a < σ'.next
      ∧ σ'.cells a = some (PVal.vhash (stored ++ new), rcA)
      ∧ (∀ h, h ≠ a → h < σ.next → σ'.cells h = σ.cells h)
      ∧ List.Forall₂ (fun en e => en.1 = e.1 ∧ en.2 ≠ 0 ∧ en.2 ≠ a ∧ en.2 < σ'.next
          ∧ ∃ rc, 1 ≤ rc ∧ σ'.cells en.2 = some (encPrim e.2, rc)) new es := by
  induction es with
  | nil =>
    intro σ a stored rcA hWF ha0 haN hcell _ _ _
    exact ⟨σ, [], rfl, hWF, Nat.le_refl _, haN, by simpa using hcell,
      fun h _ _ => rfl, List.Forall₂.nil⟩
  | cons e es ih =>
    intro σ a stored rcA hWF ha0 haN hcell hnf hnd hlk
    obtain ⟨k, x⟩ := e
    have h1 : 1 ≤ σ.next := hWF.1
    have hanext : a ≠ σ.next := by omega
    have hknf : cstr k = k := hnf k (by simp)
    have hstk : stored.lookup k = none := hlk k (by simp)
    have hndk : k ∉ es.map Prod.fst := by
      have := hnd
      rw [List.map_cons, List.nodup_cons] at this
      exact this.1
    have hnd' : (es.map Prod.fst).Nodup := by
      have := hnd
      rw [List.map_cons, List.nodup_cons] at this
      exact this.2
    have hconv := toPerlValue_prim σ x h1
    have hσ₁a : ((σ.alloc (encPrim x)).1).cells a = some (PVal.vhash stored, rcA) := by
      rw [cells_alloc_ne σ _ a hanext]
      exact hcell
    have hf1 : ((σ.alloc (encPrim x)).1).cells σ.next = some (encPrim x, 1) := by
      have hself := cells_alloc_self σ (encPrim x)
      rwa [snd_alloc] at hself
    have hhs : zeroperl_hash_set ((σ.alloc (encPrim x)).1) a (cstr k) σ.next
        = ((((σ.alloc (encPrim x)).1).setVal a
            (PVal.vhash (stored ++ [(k, σ.next)]))).incref σ.next, true) := by
      rw [hknf]
      simp [zeroperl_hash_set, get_of_cells _ _ _ _ hσ₁a, hstk]
    have hdisp : ∀ σt : GuestHeap,
        disposeTemp σt (embedPrim x) (PerlValue.mk σ.next false)
          = σt.decref σ.next := by
      intro σt
      cases x <;> rfl
    set σ₃ : GuestHeap :=
      (((((σ.alloc (encPrim x)).1).setVal a
        (PVal.vhash (stored ++ [(k, σ.next)]))).incref σ.next).decref σ.next) with hσ₃def
    have hσ₂a : ((((σ.alloc (encPrim x)).1).setVal a
        (PVal.vhash (stored ++ [(k, σ.next)]))).incref σ.next).cells a
        = some (PVal.vhash (stored ++ [(k, σ.next)]), rcA) := by
      rw [cells_incref_ne _ _ _ hanext]
      exact cells_setVal_self _ _ _ _ _ hσ₁a
    have hσ₂f : ((((σ.alloc (encPrim x)).1).setVal a
        (PVal.vhash (stored ++ [(k, σ.next)]))).incref σ.next).cells σ.next
        = some (encPrim x, 2) := by
      have hsv : ((((σ.alloc (encPrim x)).1).setVal a
          (PVal.vhash (stored ++ [(k, σ.next)])))).cells σ.next
          = some (encPrim x, 1) := by
        rw [cells_setVal_ne _ _ _ _ (Ne.symm hanext)]
        exact hf1
      exact cells_incref_self _ _ _ _ hsv
    have hσ₃a : σ₃.cells a = some (PVal.vhash (stored ++ [(k, σ.next)]), rcA) := by
      rw [hσ₃def, cells_decref_ne _ _ _ hanext]
      exact hσ₂a
    have hσ₃f : σ₃.cells σ.next = some (encPrim x, 1) := by
      rw [hσ₃def]
      exact cells_decref_self _ _ _ 2 hσ₂f (Nat.le_refl 2)
    have hσ₃other : ∀ h, h ≠ a → h ≠ σ.next → σ₃.cells h = σ.cells h := by
      intro h hna hnn
      rw [hσ₃def, cells_decref_ne _ _ _ hnn, cells_incref_ne _ _ _ hnn,
        cells_setVal_ne _ _ _ _ hna, cells_alloc_ne _ _ _ hnn]
    have hσ₃next : σ₃.next = σ.next + 1 := rfl
    have hσ₃WF : σ₃.WF := by
      refine ⟨?_, ?_, ?_⟩
      · rw [hσ₃next]
        omega
      · have hz : (0 : Nat) ≠ a := by omega
        have hz2 : (0 : Nat) ≠ σ.next := by omega
        rw [hσ₃other 0 hz hz2]
        exact hWF.2.1
      · intro h hh
        rw [hσ₃next] at hh
        have hna : h ≠ a := by omega
        have hnn : h ≠ σ.next := by omega
        rw [hσ₃other h hna hnn]
        exact hWF.2.2 h (by omega)
    have hlk' : ∀ k' ∈ es.map Prod.fst,
        (stored ++ [(k, σ.next)]).lookup k' = none := by
      intro k' hk'
      refine lookup_append_of_ne stored (k, σ.next) k' (hlk k' (by simp [hk'])) ?_
      intro hkk
      have hkk' : k' = k := hkk
      exact hndk (hkk' ▸ hk')
    obtain ⟨σ', new'', hrun, hWF', hle', haN', hcell', hpres', hfa'⟩ :=
      ih σ₃ a (stored ++ [(k, σ.next)]) rcA hσ₃WF ha0 (by rw [hσ₃next]; omega)
        hσ₃a (fun k' hk' => hnf k' (by simp [hk'])) hnd' hlk'
    have hle3 : σ.next + 1 ≤ σ'.next := by
      rw [hσ₃next] at hle'
      exact hle'
    refine ⟨σ', (k, σ.next) :: new'', ?_, hWF', by omega, haN', ?_, ?_, ?_⟩
    · simp only [List.map_cons, setAllConv, hconv, hhs, hdisp]
      exact hrun
    · rw [hcell']
      simp [List.append_assoc]
    · intro h hna hlt
      have hnn : h ≠ σ.next := by omega
      rw [hpres' h hna (by rw [hσ₃next]; omega), hσ₃other h hna hnn]
    · refine List.Forall₂.cons ⟨rfl, by omega, Ne.symm hanext, by omega, 1,
        Nat.le_refl 1, ?_⟩ hfa'
      rw [hpres' σ.next (Ne.symm hanext) (by rw [hσ₃next]; omega)]
      exact hσ₃f

theorem projectEntries_spec (es : List (String × JSPrim)) :
    ∀ (ents : List (String × Nat)) (σ : GuestHeap),
    List.Forall₂ (fun en (e : String × JSPrim) => en.1 = e.1 ∧ en.2 ≠ 0
        ∧ ∃ rc, 1 ≤ rc ∧ σ.cells en.2 = some (encPrim e.2, rc)) ents es →
    ∃ σfin, projectEntries σ ents
      = Except.ok (σfin, es.map (fun e => (e.1, projPrim e.2))) := by
  induction es with
  | nil =>
    intro ents σ hfa
    cases hfa
    exact ⟨σ, rfl⟩
  | cons e es ih =>
    intro ents σ hfa
    cases hfa with
    | cons hx hrest =>
      rename_i en ents'
      obtain ⟨enk, envh⟩ := en
      obtain ⟨hk1, hz, rc, hrc, hc⟩ := hx
      have hIc : (σ.incref envh).cells envh = some (encPrim e.2, rc + 1) :=
        cells_incref_self _ _ _ _ hc
      have hproj : PerlValue.project (σ.incref envh) (PerlValue.mk envh false)
          = Except.ok (projPrim e.2) := project_encPrim _ _ _ _ hIc
      have hnet : ∀ h', ((σ.incref envh).decref envh).cells h' = σ.cells h' :=
        cells_incref_decref σ envh _ rc hc hrc
      have hfa' : List.Forall₂ (fun en' (e' : String × JSPrim) => en'.1 = e'.1
          ∧ en'.2 ≠ 0 ∧ ∃ rc', 1 ≤ rc'
          ∧ ((σ.incref envh).decref envh).cells en'.2
              = some (encPrim e'.2, rc')) ents' es := by
        refine List.Forall₂.imp ?_ hrest
        rintro en' e' ⟨hk1', hz', rc', hrc', hc'⟩
        exact ⟨hk1', hz', rc', hrc', by rw [hnet en'.2]; exact hc'⟩
      obtain ⟨σfin, hrec⟩ := ih ents' _ hfa'
      refine ⟨σfin, ?_⟩
      simp only [projectEntries, hproj, PerlValue.dispose, zeroperl_value_free]
      simp only [Bool.false_eq_true, if_false]
      rw [hrec]
      have hk1' : enk = e.1 := hk1
      rw [hk1']
      rfl

theorem map_roundtrip_aux (σ : GuestHeap) (hWF : σ.WF) (es : List (String × JSPrim))
    (hnf : ∀ k ∈ es.map Prod.fst, NulFree k)
    (hnd : (es.map Prod.fst).Nodup) :
    mapRoundTrip σ (es.map (fun e => (e.1, embedPrim e.2)))
      = Except.ok (es.map (fun e => (e.1, projPrim e.2))) := by
  have h1 : 1 ≤ σ.next := hWF.1
  have hz : σ.next ≠ 0 := by omega
  have hA_WF : ((σ.alloc (PVal.vhash [])).1).WF := WF_alloc σ _ hWF
  have hAcell : ((σ.alloc (PVal.vhash [])).1).cells σ.next
      = some (PVal.vhash [], 1) := by
    have hself := cells_alloc_self σ (PVal.vhash [])
    rwa [snd_alloc] at hself
  have hAnext : ((σ.alloc (PVal.vhash [])).1).next = σ.next + 1 := rfl
  obtain ⟨σ', new, hrun, hWF', hle', haN', hcellA, hpres', hfa'⟩ :=
    setAllConv_spec es ((σ.alloc (PVal.vhash [])).1) σ.next [] 1 hA_WF (by omega)
      (by rw [hAnext]; omega) hAcell hnf hnd (fun k _ => rfl)
  have h1' : 1 ≤ σ'.next := hWF'.1
  have hz' : σ'.next ≠ 0 := by omega
  have hcellA' : σ'.cells σ.next = some (PVal.vhash new, 1) := by simpa using hcellA
  have hle2 : σ.next + 1 ≤ σ'.next := by
    rw [hAnext] at hle'
    exact hle'
  have hIN : (σ'.incref σ.next).next = σ'.next := rfl
  have hvalget : σ'.get σ.next = some (PVal.vhash new) := get_of_cells _ _ _ _ hcellA'
  have hatv : zeroperl_hash_to_value σ' σ.next
      = ((σ'.incref σ.next).alloc (PVal.vref σ.next)) := by
    unfold zeroperl_hash_to_value
    rw [hvalget]
  have hrv : ((σ'.incref σ.next).alloc (PVal.vref σ.next)).2 = σ'.next := rfl
  have htv : PerlHash.toValue σ' (PerlHash.mk σ.next false)
      = Except.ok (((σ'.incref σ.next).alloc (PVal.vref σ.next)).1,
          PerlValue.mk σ'.next false) := by
    unfold PerlHash.toValue PerlHash.checkDisposed
    simp [hatv, hrv, hz']
  set σB : GuestHeap := ((σ'.incref σ.next).alloc (PVal.vref σ.next)).1 with hBdef
  set σC : GuestHeap := σB.decref σ.next with hCdef
  have hdispose : (PerlHash.dispose σB (PerlHash.mk σ.next false)).1 = σC := rfl
  have hconv : ZeroPerl.toPerlValue σ
      (JSConv.cobj (es.map (fun e => (e.1, embedPrim e.2))))
      = Except.ok (σC, PerlValue.mk σ'.next false) := by
    simp only [ZeroPerl.toPerlValue, zeroperl_new_hash, snd_alloc]
    rw [if_neg hz]
    simp only [hrun, htv, hdispose]
  have hCrv : σC.cells σ'.next = some (PVal.vref σ.next, 1) := by
    rw [hCdef, cells_decref_ne _ _ _ (by omega : σ'.next ≠ σ.next), hBdef]
    have hself := cells_alloc_self (σ'.incref σ.next) (PVal.vref σ.next)
    rw [snd_alloc, hIN] at hself
    exact hself
  have hCa : σC.cells σ.next = some (PVal.vhash new, 1) := by
    rw [hCdef]
    refine cells_decref_self σB σ.next _ 2 ?_ (Nat.le_refl 2)
    rw [hBdef]
    have hne : σ.next ≠ (σ'.incref σ.next).next := by
      rw [hIN]
      omega
    rw [cells_alloc_ne _ _ _ hne]
    exact cells_incref_self σ' σ.next _ 1 hcellA'
  have hCother : ∀ h, h ≠ σ.next → h < σ'.next → σC.cells h = σ'.cells h := by
    intro h hna hlt
    rw [hCdef, cells_decref_ne _ _ _ hna, hBdef]
    have hne2 : h ≠ (σ'.incref σ.next).next := by
      rw [hIN]
      omega
    rw [cells_alloc_ne _ _ _ hne2, cells_incref_ne _ _ _ hna]
  have hv2h : zeroperl_value_to_hash σC σ'.next = (σC.incref σ.next, σ.next) := by
    simp [zeroperl_value_to_hash, get_of_cells _ _ _ _ hCrv,
      get_of_cells _ _ _ _ hCa]
  have hfromv : PerlHash.fromValue σC (PerlValue.mk σ'.next false)
      = Except.ok (σC.incref σ.next, some (PerlHash.mk σ.next false)) := by
    unfold PerlHash.fromValue PerlValue.getPtr PerlValue.checkDisposed
    simp [hv2h, hz]
  have hDa : (σC.incref σ.next).cells σ.next = some (PVal.vhash new, 2) :=
    cells_incref_self _ _ _ _ hCa
  have hents : zeroperl_hash_entries (σC.incref σ.next) σ.next = new := by
    unfold zeroperl_hash_entries
    rw [get_of_cells _ _ _ _ hDa]
  have hfaD : List.Forall₂ (fun en (e : String × JSPrim) => en.1 = e.1
      ∧ en.2 ≠ 0 ∧ ∃ rc, 1 ≤ rc
      ∧ (σC.incref σ.next).cells en.2 = some (encPrim e.2, rc)) new es := by
    refine List.Forall₂.imp ?_ hfa'
    rintro en e ⟨hk1, hz0, hna, hlt, rc, hrc, hc⟩
    refine ⟨hk1, hz0, rc, hrc, ?_⟩
    rw [cells_incref_ne _ _ _ hna, hCother en.2 hna hlt]
    exact hc
  obtain ⟨σfin, hpe⟩ := projectEntries_spec es new (σC.incref σ.next) hfaD
  have hproj : PerlHash.project (σC.incref σ.next) (PerlHash.mk σ.next false)
      = Except.ok (σfin, es.map (fun e => (e.1, projPrim e.2))) := by
    unfold PerlHash.project PerlHash.checkDisposed
    simp only [Bool.false_eq_true, if_false, hents]
    exact hpe
  simp only [mapRoundTrip, hconv, hfromv, hproj]

/-- C4 amended: converting a host value with `toPerlValue` and projecting
the result back with the appropriate `project()` returns the original
value — for every primitive; for every array of primitives, element-wise;
and for every plain string-keyed map of primitives whose keys are free of
NUL characters (forced by the counterexample: the C-string boundary
truncates keys at the first NUL), key-wise.  The model compares rationals
exactly, refining the claim's float tolerance. -/
theorem roundtrip_amended (σ : GuestHeap) (hWF : σ.WF) :
    (∀ p : JSPrim, primRoundTrip σ p = Except.ok (projPrim p))
    ∧ (∀ xs : List JSPrim, arrayRoundTrip σ (xs.map embedPrim)
        = Except.ok (xs.map projPrim))
    ∧ (∀ es : List (String × JSPrim), (es.map Prod.fst).Nodup →
        (∀ k ∈ es.map Prod.fst, NulFree k) →
        mapRoundTrip σ (es.map (fun e => (e.1, embedPrim e.2)))
          = Except.ok (es.map (fun e => (e.1, projPrim e.2)))) := by
  refine ⟨?_, fun xs => array_roundtrip_aux σ hWF xs,
    fun es hnd hnf => map_roundtrip_aux σ hWF es hnf hnd⟩
  intro p
  have hconv := toPerlValue_prim σ p hWF.1
  have hcell : ((σ.alloc (encPrim p)).1).cells σ.next = some (encPrim p, 1) := by
    have hself := cells_alloc_self σ (encPrim p)
    rwa [snd_alloc] at hself
  have hproj := project_encPrim ((σ.alloc (encPrim p)).1) σ.next p 1 hcell
  simp only [primRoundTrip, hconv, hproj]

/-- C4 witness: concrete round trips on the empty heap. -/
theorem roundtrip_witness :
    primRoundTrip emptyHeap (JSPrim.pnum 2) = Except.ok (JSV.jnum 2)
    ∧ arrayRoundTrip emptyHeap [embedPrim (JSPrim.pstr ("hi"))]
        = Except.ok [JSV.jstr ("hi")]
    ∧ mapRoundTrip emptyHeap [(("a"), embedPrim (JSPrim.pnum 1))]
        = Except.ok [(("a"), JSV.jnum 1)] := by
  have h := roundtrip_amended emptyHeap ⟨Nat.le_refl 1, rfl, fun _ _ => rfl⟩
  refine ⟨h.1 (JSPrim.pnum 2), ?_, ?_⟩
  · exact h.2.1 [JSPrim.pstr ("hi")]
  · refine h.2.2 [(("a"), JSPrim.pnum 1)] (by decide) ?_
    intro k hk
    have hk' : k = ("a") := by simpa using hk
    subst hk'
    show cstr ("a") = ("a")
    decide

end ZeroPerlTs
